import Mathlib

/-!
BMP negative converter: a shallow embedding of `main.cpp`.

The program reads a BMP file, validates a few header fields, loads the pixel
array row by row, replaces every pixel by its "negative" and writes the
result to `temp_file.bmp`.

Modelling conventions.

* A file is the list of its bytes; a byte is a `Fin 256`.
* The header structs are kept as the raw bytes that `fread` stored into them
  (the program reads and writes struct memory verbatim); fields are decoded
  little-endian on access, as on the x86 targets of the MSVC build the source
  is written for.
* `int` is 32 bits.  Signed overflow and the use of an uninitialised pointer
  are reported as `Fault.undefined_behaviour`.
* Memory that the program never initialises (the header structs before a read,
  a freshly `malloc`ed row) is supplied by the environment `Env`.  No result
  of `fread` is checked by the program: a read that comes up short stores the
  bytes that are there and leaves the rest of its buffer as it was.
* `fseek(f, offset, SEEK_SET)` sets the file position to `offset`; the program
  ignores its result.  This takes `long` to hold every value of the 32-bit
  offset field; a C runtime with a 32-bit `long` refuses offsets of 2^31 and
  more, and what follows then is that runtime's business and is not modelled.
* The model starts after both files have been opened successfully, and
  allocations of a positive in-range size succeed.
* The output is the byte sequence handed to `fwrite`; what a text-mode stream
  makes of it on disk is the C runtime's business and is not modelled.
-/

namespace BmpNegative

/-- One byte of a file or of memory. -/
abbrev Byte := Fin 256

/-- Why a run stops without returning normally. -/
inductive Fault where
  /-- The program called `perror` with this text and then `exit(-1)`; the text
  is `none` when the pointer given to `perror` lies outside the literal. -/
  | exit_failure (diagnostic : Option String)
  /-- The source leaves the behaviour open at this point. -/
  | undefined_behaviour
  deriving DecidableEq, Repr

/-- Contents of memory the program reads before having written it. -/
structure Env where
  /-- Bytes of `header` (offsets 0..13) before the header reads. -/
  header_junk : Nat → Byte
  /-- Bytes of `dib_header` before its read. -/
  dib_junk : Nat → Byte
  /-- Initial contents of the row allocated for grid index `i`. -/
  heap : Nat → Nat → Byte

/-! ## Integers -/

def INT_MAX : Int := 2147483647
def INT_MIN : Int := -2147483648

/-- The value fits a 32-bit `int`. -/
def in_int (x : Int) : Bool := decide (INT_MIN ≤ x) && decide (x ≤ INT_MAX)

/-- Little-endian unsigned value of a run of bytes. -/
def le_value : List Byte → Nat
  | [] => 0
  | b :: rest => b.val + 256 * le_value rest

/-- A 32-bit pattern read as `signed int`. -/
def to_int32 (n : Nat) : Int :=
  if n < 2147483648 then (n : Int) else (n : Int) - 4294967296

/-- A byte read as `signed char`. -/
def to_schar (b : Byte) : Int :=
  if b.val < 128 then (b.val : Int) else (b.val : Int) - 256

/-- An `int` converted to `unsigned char`. -/
def to_uchar (x : Int) : Byte :=
  ⟨(x % 256).toNat, by omega⟩

/-! ## The structs -/

/-- `struct BITMAP_HEADER`, as the bytes the two header reads store: `name`
(2 bytes) and the 12 bytes starting at `size` (`size`, `reserved`, `offset`). -/
structure BITMAP_HEADER where
  name : List Byte
  fields : List Byte

/-- The `offset` member (bytes 8..11 of `fields`). -/
def BITMAP_HEADER.offset (h : BITMAP_HEADER) : Nat :=
  le_value ((h.fields.drop 8).take 4)

/-- `struct DIB_HEADER`, as the 40 bytes its read stores. -/
structure DIB_HEADER where
  bytes : List Byte

def DIB_HEADER.header_size (d : DIB_HEADER) : Nat := le_value (d.bytes.take 4)
def DIB_HEADER.width (d : DIB_HEADER) : Int := to_int32 (le_value ((d.bytes.drop 4).take 4))
def DIB_HEADER.height (d : DIB_HEADER) : Int := to_int32 (le_value ((d.bytes.drop 8).take 4))
def DIB_HEADER.color_planes (d : DIB_HEADER) : Nat := le_value ((d.bytes.drop 12).take 2)
def DIB_HEADER.bits_per_pixel (d : DIB_HEADER) : Nat := le_value ((d.bytes.drop 14).take 2)
def DIB_HEADER.compression (d : DIB_HEADER) : Nat := le_value ((d.bytes.drop 16).take 4)

/-- `struct RGB`: three bytes in memory order blue, green, red. -/
structure RGB where
  blue : Byte
  green : Byte
  red : Byte
  deriving DecidableEq, Repr

/-- `struct image`.  `rgb` is `none` while the pointer is uninitialised;
otherwise it lists the row buffers by grid index, each as raw bytes. -/
structure image where
  width : Int
  height : Int
  rgb : Option (List (List Byte))
  deriving DecidableEq

/-! ## Pixel transform -/

/-- `negative`: the three differences are added in `int` and the sum is
returned as `unsigned char`. -/
def negative (rgb : RGB) : Byte :=
  to_uchar ((255 - to_schar rgb.red) + (255 - to_schar rgb.green) + (255 - to_schar rgb.blue))

/-- Inner loop of `image_to_negative` over one row buffer: for `j` below the
width, `red = green = blue = negative(rgb[i][j])`.  The row buffers built by
`read_image` hold more than `3 * width` bytes, so the last case is not reached
from `open_BM_file`. -/
def negate_row : Nat → List Byte → List Byte
  | 0, row => row
  | n + 1, b :: g :: r :: rest =>
      negative ⟨b, g, r⟩ :: negative ⟨b, g, r⟩ :: negative ⟨b, g, r⟩ :: negate_row n rest
  | _ + 1, row => row

/-- `image_to_negative`: rows `0 .. height-1`, columns `0 .. width-1`.  With
no pixel to visit the grid pointer is not touched; otherwise it must be
initialised and hold `height` rows. -/
def image_to_negative (photo : image) : Except Fault image :=
  if photo.height ≤ 0 ∨ photo.width ≤ 0 then .ok photo
  else
    match photo.rgb with
    | none => .error .undefined_behaviour
    | some rows =>
      if rows.length < photo.height.toNat then .error .undefined_behaviour
      else
        .ok { photo with
              rgb := some ((rows.take photo.height.toNat).map (negate_row photo.width.toNat)
                            ++ rows.drop photo.height.toNat) }

/-! ## Reading -/

/-- `fread(buf, n, 1, f)` at position `pos`, into a struct of `n` bytes whose
content before the call is `junk (base + k)` at byte `k`.  The bytes that are
available, at most `n`, are stored at the start of the struct and the position
moves past them; when fewer than `n` bytes remain, the rest of the struct
keeps its content.  Returns the struct bytes and the new position. -/
def fread_block (junk : Nat → Byte) (base n : Nat) (file : List Byte) (pos : Nat) :
    List Byte × Nat :=
  ((file.drop pos).take n
      ++ ((List.range n).map (fun k => junk (base + k))).drop ((file.drop pos).take n).length,
    pos + ((file.drop pos).take n).length)

/-- `fread(buf, 1, n, f)` at position `pos`: the bytes that are available, at
most `n`, overwrite the start of `buf`; the rest of `buf` keeps its content. -/
def fread_bytes (buf : List Byte) (n : Nat) (file : List Byte) (pos : Nat) : List Byte :=
  (file.drop pos).take n ++ buf.drop ((file.drop pos).take n).length

/-- `malloc(number_rgb * sizeof(struct RGB))` for grid row `i`: a buffer of
`3 * number_rgb` bytes with whatever the heap holds. -/
def malloc_row (env : Env) (i number_rgb : Nat) : List Byte :=
  (List.range (number_rgb * 3)).map (env.heap i)

/-- `((24 * width + 31) / 32) * 4` in `int` arithmetic (division truncates
towards zero); `none` when a step overflows. -/
def row_bytes (width : Int) : Option Int :=
  if in_int (24 * width) && in_int (24 * width + 31) then
    some (((24 * width + 31).tdiv 32) * 4)
  else none

/-- The loop `for (i = height - 1; i >= 0; i--)` of `read_image`, entered with
`i + 1` rows still to read and the file at `pos`: row `i` is allocated and
filled first, then the rows below it.  The result lists the rows by grid
index. -/
def read_rows (env : Env) (file : List Byte) (bytes_read number_rgb : Nat) :
    Nat → Nat → List (List Byte)
  | 0, _ => []
  | i + 1, pos =>
      read_rows env file bytes_read number_rgb i
          (pos + ((file.drop pos).take bytes_read).length)
        ++ [fread_bytes (malloc_row env i number_rgb) bytes_read file pos]

/-- `read_image`, with the file position `pos` made explicit. -/
def read_image (env : Env) (file : List Byte) (pos : Nat) (height width : Int) :
    Except Fault image :=
  if height ≠ 0 ∧ width ≠ 0 then
    match row_bytes width with
    | none => .error .undefined_behaviour
    | some bytes_read =>
      if in_int (height - 1) = false then .error .undefined_behaviour
      else if height - 1 < 0 then .ok { width := width, height := height, rgb := some [] }
      else if bytes_read < 0 then .error .undefined_behaviour
      else
        .ok { width := width, height := height,
              rgb := some (read_rows env file bytes_read.toNat (bytes_read.toNat / 3 + 1)
                            height.toNat pos) }
  else .ok { width := width, height := height, rgb := none }

/-! ## Writing -/

/-- The loop `for (i = height - 1; i >= 0; i--) fwrite(photo.rgb[i], n, 1, out)`
entered with `i + 1` rows still to write: the first `n` bytes of each row. -/
def write_rows (rows : List (List Byte)) (n : Nat) : Nat → List Byte
  | 0 => []
  | i + 1 => (rows.getD i []).take n ++ write_rows rows n i

/-- The three header writes and the row loop of `create_negative_image`. -/
def write_image (header : BITMAP_HEADER) (dibheader : DIB_HEADER) (photo : image) :
    Except Fault (List Byte) :=
  if in_int (photo.height - 1) = false then .error .undefined_behaviour
  else if photo.height - 1 < 0 then .ok (header.name ++ header.fields ++ dibheader.bytes)
  else
    match photo.rgb with
    | none => .error .undefined_behaviour
    | some rows =>
      if rows.length < photo.height.toNat then .error .undefined_behaviour
      else
        match row_bytes photo.width with
        | none => .error .undefined_behaviour
        | some n =>
          if n < 0 then .error .undefined_behaviour
          else
            .ok (header.name ++ header.fields ++ dibheader.bytes
                  ++ write_rows rows n.toNat photo.height.toNat)

/-- `create_negative_image`: transform, then write.  The result is the
content of `temp_file.bmp`. -/
def create_negative_image (header : BITMAP_HEADER) (dibheader : DIB_HEADER) (photo : image) :
    Except Fault (List Byte) :=
  match image_to_negative photo with
  | .error e => .error e
  | .ok negated => write_image header dibheader negated

/-! ## Validation -/

def check_header_size (size : Nat) : Except Fault Unit :=
  if size ≠ 40 then
    .error (.exit_failure (some "ERROR: Header size is not 40, need a clean bmp file to work!"))
  else .ok ()

def check_bits_per_pixel (bits : Nat) : Except Fault Unit :=
  if bits ≠ 24 then
    .error (.exit_failure (some "ERROR: Bits per pixel must be 24 for consistency!"))
  else .ok ()

def check_compression (compression : Nat) : Except Fault Unit :=
  if compression ≠ 0 then
    .error (.exit_failure (some "ERROR: Image file must not be compressed!"))
  else .ok ()

/-- The signature test; `'B'` is 66 and `'M'` is 77. -/
def check_BMP_file (name1 name2 : Byte) : Except Fault Unit :=
  if name1 ≠ 66 ∨ name2 ≠ 77 then
    .error (.exit_failure
      (some "ERROR: Could not process file!\n->File format must be for BMP format (.bmp)"))
  else .ok ()

/-- The literal in `check_color_planes`. -/
def color_planes_text : String :=
  "ERROR: Color planes must be 1.\nColor planes read from file:"

/-- `check_color_planes`.  The argument of `perror` is the literal's address
plus `planes`: the literal with its first `planes` characters cut off while
that stays inside the literal, and no defined text beyond. -/
def check_color_planes (planes : Nat) : Except Fault Unit :=
  if planes ≠ 1 then
    .error (.exit_failure
      (if planes ≤ color_planes_text.length then
        some (String.mk (color_planes_text.toList.drop planes))
      else none))
  else .ok ()

/-! ## The conversion -/

/-- The two header reads and the read of the info header, in file order. -/
def read_headers (env : Env) (file : List Byte) : BITMAP_HEADER × DIB_HEADER :=
  let name := fread_block env.header_junk 0 2 file 0
  let fields := fread_block env.header_junk 2 12 file name.2
  let dib := fread_block env.dib_junk 0 40 file fields.2
  (⟨name.1, fields.1⟩, ⟨dib.1⟩)

/-- The four format checks in the order `open_BM_file` calls them. -/
def check_format (dib_header : DIB_HEADER) : Except Fault Unit :=
  match check_bits_per_pixel dib_header.bits_per_pixel with
  | .error e => .error e
  | .ok _ =>
    match check_compression dib_header.compression with
    | .error e => .error e
    | .ok _ =>
      match check_header_size dib_header.header_size with
      | .error e => .error e
      | .ok _ => check_color_planes dib_header.color_planes

/-- Everything `open_BM_file` does up to and including `read_image`: header
reads, signature check, format checks, `fseek` to `offset`, `read_image`. -/
def decode (env : Env) (file : List Byte) :
    Except Fault (BITMAP_HEADER × DIB_HEADER × image) :=
  let headers := read_headers env file
  match check_BMP_file (headers.1.name.getD 0 0) (headers.1.name.getD 1 0) with
  | .error e => .error e
  | .ok _ =>
    match check_format headers.2 with
    | .error e => .error e
    | .ok _ =>
      match read_image env file headers.1.offset headers.2.height headers.2.width with
      | .error e => .error e
      | .ok img => .ok (headers.1, headers.2, img)

/-- `free(img.rgb)` at the end of `open_BM_file`. -/
def free_image (img : image) : Except Fault Unit :=
  match img.rgb with
  | none => .error .undefined_behaviour
  | some _ => .ok ()

/-- `open_BM_file` on a file with content `file`: the content written to
`temp_file.bmp` when the function returns. -/
def open_BM_file (env : Env) (file : List Byte) : Except Fault (List Byte) :=
  match decode env file with
  | .error e => .error e
  | .ok (header, dib_header, img) =>
    match create_negative_image header dib_header img with
    | .error e => .error e
    | .ok out =>
      match free_image img with
      | .error e => .error e
      | .ok _ => .ok out

/-! ## Vocabulary of the properties -/

/-- The header structs of a file that holds all 54 header bytes: bytes 0..1,
2..13 and 14..53. -/
def file_headers (file : List Byte) : BITMAP_HEADER × DIB_HEADER :=
  (⟨file.take 2, (file.drop 2).take 12⟩, ⟨(file.drop 14).take 40⟩)

/-- Row stride of a 24-bit image of width `w`, by the padding formula
`((bits_per_pixel * width + 31) / 32) * 4`. -/
def stride (w : Nat) : Nat := (24 * w + 31) / 32 * 4

/-- Scanline `k` (in disk order) of a pixel array that starts at byte `pos`
and has rows of `n` bytes. -/
def scanline (file : List Byte) (pos n k : Nat) : List Byte :=
  (file.drop (pos + k * n)).take n

/-- A well-formed BMP byte sequence in the words of the round-trip property:
signature 'B','M', header size 40, 1 plane, 24 bits per pixel, compression 0,
positive width and height, a pixel array of `height` rows of `stride` bytes
that starts at `offset` (at or after the end of the info header) and ends the
file, and zero padding bytes. -/
def well_formed_bmp (file : List Byte) : Prop :=
  54 ≤ file.length ∧
  (file_headers file).1.name = [66, 77] ∧
  (file_headers file).2.header_size = 40 ∧
  (file_headers file).2.color_planes = 1 ∧
  (file_headers file).2.bits_per_pixel = 24 ∧
  (file_headers file).2.compression = 0 ∧
  0 < (file_headers file).2.width ∧
  0 < (file_headers file).2.height ∧
  54 ≤ (file_headers file).1.offset ∧
  file.length = (file_headers file).1.offset
    + (file_headers file).2.height.toNat * stride (file_headers file).2.width.toNat ∧
  ∀ k < (file_headers file).2.height.toNat,
    (scanline file (file_headers file).1.offset (stride (file_headers file).2.width.toNat) k).drop
        (3 * (file_headers file).2.width.toNat)
      = List.replicate
          (stride (file_headers file).2.width.toNat - 3 * (file_headers file).2.width.toNat) 0

instance (file : List Byte) : Decidable (well_formed_bmp file) := by
  unfold well_formed_bmp
  infer_instance

/-- Decoding followed at once by encoding: `open_BM_file` with the call of
`image_to_negative` in `create_negative_image` left out. -/
def round_trip (env : Env) (file : List Byte) : Except Fault (List Byte) :=
  match decode env file with
  | .error e => .error e
  | .ok (header, dib_header, img) =>
    match write_image header dib_header img with
    | .error e => .error e
    | .ok out =>
      match free_image img with
      | .error e => .error e
      | .ok _ => .ok out

/-- Saturation to the range of a byte, `min(255, max(0, x))`. -/
def clamp_to_byte (x : Int) : Int := min 255 (max 0 x)

/-- The value `negative` would return if the three channels were read as
unsigned bytes. -/
def negative_unsigned (rgb : RGB) : Byte :=
  to_uchar ((255 - (rgb.red.val : Int)) + (255 - (rgb.green.val : Int))
    + (255 - (rgb.blue.val : Int)))

/-- The text `sub` occurs in the text `msg`. -/
def occurs_in (sub msg : String) : Prop := sub.toList <:+: msg.toList

instance (sub msg : String) : Decidable (occurs_in sub msg) := by
  unfold occurs_in
  infer_instance

/-! ## Sample inputs -/

/-- The `k` low bytes of `v`, least significant first. -/
def le_bytes : Nat → Nat → List Byte
  | 0, _ => []
  | k + 1, v => Fin.ofNat v :: le_bytes k (v / 256)

/-- The 54 header bytes of a BMP file with the given signature and fields
(reserved, image size and the four trailing fields zero). -/
def bmp_headers (c1 c2 : Byte)
    (size offset header_size width height planes bits compression : Nat) : List Byte :=
  [c1, c2] ++ le_bytes 4 size ++ le_bytes 4 0 ++ le_bytes 4 offset
    ++ le_bytes 4 header_size ++ le_bytes 4 width ++ le_bytes 4 height
    ++ le_bytes 2 planes ++ le_bytes 2 bits ++ le_bytes 4 compression
    ++ le_bytes 4 0 ++ le_bytes 16 0

/-- Uninitialised memory that happens to hold zeros. -/
def zero_env : Env := ⟨fun _ => 0, fun _ => 0, fun _ _ => 0⟩

/-- A 1x1 image whose only pixel is (red=10, green=200, blue=0); the row
buffer has the 6 bytes `read_image` allocates for width 1. -/
def one_pixel : image := ⟨1, 1, some [[0, 200, 10, 0, 0, 0]]⟩

/-- Headers of a 1x1 image whose pixel array starts at byte 54. -/
def headers_1x1 : List Byte := bmp_headers 66 77 58 54 40 1 1 1 24 0

/-- A 1x1 image with one byte of filler between the info header and the pixel
array (offset 55). -/
def filler_bmp : List Byte :=
  bmp_headers 66 77 59 55 40 1 1 1 24 0 ++ [9] ++ [0, 200, 10, 0]

/-- Headers announcing width 1 and height -1. -/
def negative_height_bmp : List Byte := bmp_headers 66 77 54 54 40 1 4294967295 1 24 0

/-- A 1x1 image with a non-zero padding byte. -/
def padded_bmp : List Byte := headers_1x1 ++ [0, 200, 10, 255]

/-- A 1x1 image with zero padding. -/
def plain_bmp : List Byte := headers_1x1 ++ [0, 200, 10, 0]

/-- Headers announcing 8 bits per pixel. -/
def eight_bit_bmp : List Byte := bmp_headers 66 77 58 54 40 1 1 1 8 0

/-- Headers with the signature "BZ". -/
def bz_bmp : List Byte := bmp_headers 66 90 58 54 40 1 1 1 24 0

/-- A 1x2 image (width 1, height 2): the scanline stored first (the bottom
row) holds the pixel (red=10, green=200, blue=0), the second one (the top row)
the pixel (red=1, green=2, blue=3). -/
def two_row_bmp : List Byte :=
  bmp_headers 66 77 62 54 40 1 2 1 24 0 ++ [0, 200, 10, 0] ++ [3, 2, 1, 0]

/-- The image `filler_bmp` with another filler byte. -/
def filler_bmp_other : List Byte :=
  bmp_headers 66 77 59 55 40 1 1 1 24 0 ++ [7] ++ [0, 200, 10, 0]

/-- A 1x1 image whose offset field is 0. -/
def header_offset_bmp : List Byte := bmp_headers 66 77 58 0 40 1 1 1 24 0 ++ [0, 200, 10, 0]

/-- Uninitialised memory that happens to hold the byte 170 everywhere. -/
def aa_env : Env := ⟨fun _ => 170, fun _ => 170, fun _ _ => 170⟩

/-- The headers of the 1x1 image without their last byte: a file of 53 bytes. -/
def short_header_bmp : List Byte := headers_1x1.take 53

/-- A 1x1 image whose offset field is 2^31, far beyond the end of the file. -/
def far_offset_bmp : List Byte :=
  bmp_headers 66 77 58 2147483648 40 1 1 1 24 0 ++ [0, 200, 10, 0]

deriving instance DecidableEq for Except

/-! ## Lemmas -/

theorem fread_block_length (junk : Nat → Byte) (base n : Nat) (file : List Byte) (pos : Nat) :
    (fread_block junk base n file pos).1.length = n := by
  simp only [fread_block, List.length_append, List.length_take, List.length_drop,
    List.length_map, List.length_range]
  omega

theorem read_headers_complete (env : Env) (file : List Byte) (h : 54 ≤ file.length) :
    read_headers env file
      = (⟨file.take 2, (file.drop 2).take 12⟩, ⟨(file.drop 14).take 40⟩) := by
  have e2 : ((file.drop 0).take 2).length = 2 := by simp; omega
  have e12 : ((file.drop 2).take 12).length = 12 := by simp; omega
  have e40 : ((file.drop 14).take 40).length = 40 := by simp; omega
  simp only [read_headers, fread_block, e2, Nat.zero_add, e12, Nat.reduceAdd, e40]
  simp

theorem read_headers_lengths (env : Env) (file : List Byte) :
    (read_headers env file).1.name.length = 2 ∧ (read_headers env file).1.fields.length = 12 ∧
    (read_headers env file).2.bytes.length = 40 := by
  simp [read_headers, fread_block_length]

theorem check_format_ok_iff (dib : DIB_HEADER) :
    check_format dib = .ok () ↔
      (dib.header_size = 40 ∧ dib.bits_per_pixel = 24 ∧ dib.compression = 0 ∧
        dib.color_planes = 1) := by
  unfold check_format check_bits_per_pixel check_compression check_header_size check_color_planes
  by_cases h1 : dib.bits_per_pixel = 24 <;> by_cases h2 : dib.compression = 0 <;>
    by_cases h3 : dib.header_size = 40 <;> by_cases h4 : dib.color_planes = 1 <;>
    simp [h1, h2, h3, h4]

theorem check_format_error (dib : DIB_HEADER) (e : Fault) (h : check_format dib = .error e) :
    ∃ d, e = .exit_failure d := by
  unfold check_format check_bits_per_pixel check_compression check_header_size
    check_color_planes at h
  by_cases h1 : dib.bits_per_pixel = 24 <;> by_cases h2 : dib.compression = 0 <;>
    by_cases h3 : dib.header_size = 40 <;> by_cases h4 : dib.color_planes = 1 <;>
    simp [h1, h2, h3, h4] at h <;> exact ⟨_, h.symm⟩

theorem check_format_cases (dib : DIB_HEADER) :
    check_format dib = .ok () ∨ ∃ d, check_format dib = .error (.exit_failure d) := by
  cases h : check_format dib with
  | ok u => left; rfl
  | error e =>
    obtain ⟨d, hd⟩ := check_format_error dib e h
    right; exact ⟨d, by rw [hd]⟩

theorem read_image_error (env : Env) (file : List Byte) (pos : Nat) (height width : Int)
    (e : Fault) (h : read_image env file pos height width = .error e) :
    e = .undefined_behaviour := by
  unfold read_image at h
  split at h
  · split at h
    · simpa using h.symm
    · split at h
      · simpa using h.symm
      · split at h
        · simp at h
        · split at h
          · simpa using h.symm
          · simp at h
  · simp at h

theorem image_to_negative_error (photo : image) (e : Fault)
    (h : image_to_negative photo = .error e) : e = .undefined_behaviour := by
  unfold image_to_negative at h
  split at h
  · simp at h
  · split at h
    · simpa using h.symm
    · split at h
      · simpa using h.symm
      · simp at h

theorem write_image_error (header : BITMAP_HEADER) (dib : DIB_HEADER) (photo : image) (e : Fault)
    (h : write_image header dib photo = .error e) : e = .undefined_behaviour := by
  unfold write_image at h
  split at h
  · simpa using h.symm
  · split at h
    · simp at h
    · split at h
      · simpa using h.symm
      · split at h
        · simpa using h.symm
        · split at h
          · simpa using h.symm
          · split at h
            · simpa using h.symm
            · simp at h

theorem create_negative_image_error (header : BITMAP_HEADER) (dib : DIB_HEADER) (photo : image)
    (e : Fault) (h : create_negative_image header dib photo = .error e) :
    e = .undefined_behaviour := by
  unfold create_negative_image at h
  split at h
  · rename_i e1 h1
    simp at h; subst h
    exact image_to_negative_error photo _ h1
  · exact write_image_error _ _ _ _ h

theorem free_image_error (img : image) (e : Fault) (h : free_image img = .error e) :
    e = .undefined_behaviour := by
  unfold free_image at h
  split at h
  · simpa using h.symm
  · simp at h

theorem open_BM_file_of_decode_error (env : Env) (file : List Byte) (e : Fault)
    (h : decode env file = .error e) : open_BM_file env file = .error e := by
  simp [open_BM_file, h]

theorem decode_signature_error (env : Env) (file : List Byte) (e : Fault)
    (h : check_BMP_file ((read_headers env file).1.name.getD 0 0)
          ((read_headers env file).1.name.getD 1 0) = .error e) :
    decode env file = .error e := by
  unfold decode
  simp only [h]

theorem decode_format_error (env : Env) (file : List Byte) (e : Fault)
    (hsig : check_BMP_file ((read_headers env file).1.name.getD 0 0)
          ((read_headers env file).1.name.getD 1 0) = .ok ())
    (h : check_format (read_headers env file).2 = .error e) :
    decode env file = .error e := by
  unfold decode
  simp only [hsig, h]

theorem decode_checked (env : Env) (file : List Byte)
    (hsig : check_BMP_file ((read_headers env file).1.name.getD 0 0)
          ((read_headers env file).1.name.getD 1 0) = .ok ())
    (hfmt : check_format (read_headers env file).2 = .ok ()) :
    decode env file =
      match read_image env file (read_headers env file).1.offset
          (read_headers env file).2.height (read_headers env file).2.width with
      | .error e => .error e
      | .ok img => .ok ((read_headers env file).1, (read_headers env file).2, img) := by
  unfold decode
  simp only [hsig, hfmt]

theorem check_BMP_file_cases (c1 c2 : Byte) :
    check_BMP_file c1 c2 = .ok () ∨ ∃ d, check_BMP_file c1 c2 = .error (.exit_failure d) := by
  unfold check_BMP_file
  split
  · right; exact ⟨_, rfl⟩
  · left; rfl

theorem decode_exit_failure (env : Env) (file : List Byte) (d : Option String)
    (h : decode env file = .error (.exit_failure d)) :
    check_BMP_file ((read_headers env file).1.name.getD 0 0)
        ((read_headers env file).1.name.getD 1 0) = .error (.exit_failure d) ∨
    (check_BMP_file ((read_headers env file).1.name.getD 0 0)
        ((read_headers env file).1.name.getD 1 0) = .ok () ∧
      check_format (read_headers env file).2 = .error (.exit_failure d)) := by
  rcases check_BMP_file_cases ((read_headers env file).1.name.getD 0 0)
      ((read_headers env file).1.name.getD 1 0) with hs | ⟨d1, hs⟩
  · right
    refine ⟨hs, ?_⟩
    rcases check_format_cases (read_headers env file).2 with hf | ⟨d2, hf⟩
    · exfalso
      simp only [decode, hs, hf] at h
      split at h
      · rename_i e he
        have := read_image_error _ _ _ _ _ _ he
        simp at h; rw [this] at h; simp at h
      · simp at h
    · rw [decode_format_error env file _ hs hf] at h
      rw [hf]; simp at h ⊢; exact h
  · left
    rw [decode_signature_error env file _ hs] at h
    rw [hs]; simp at h ⊢; exact h

theorem open_BM_file_exit_failure (env : Env) (file : List Byte) (d : Option String)
    (h : open_BM_file env file = .error (.exit_failure d)) :
    decode env file = .error (.exit_failure d) := by
  unfold open_BM_file at h
  split at h
  · rename_i e he
    simp at h; rw [h] at he; exact he
  · split at h
    · rename_i e he
      have := create_negative_image_error _ _ _ _ he
      simp at h; rw [this] at h; simp at h
    · split at h
      · rename_i e he
        have := free_image_error _ _ he
        simp at h; rw [this] at h; simp at h
      · simp at h

theorem check_BMP_file_ok_iff (c1 c2 : Byte) :
    check_BMP_file c1 c2 = .ok () ↔ (c1 = 66 ∧ c2 = 77) := by
  unfold check_BMP_file
  by_cases h1 : c1 = 66 <;> by_cases h2 : c2 = 77 <;> simp [h1, h2]


theorem read_rows_length (env : Env) (file : List Byte) (n nrgb : Nat) (h pos : Nat) :
    (read_rows env file n nrgb h pos).length = h := by
  induction h generalizing pos with
  | zero => simp [read_rows]
  | succ i ih => simp [read_rows, ih]

theorem write_rows_append (rows extra : List (List Byte)) (n i : Nat) (hi : i ≤ rows.length) :
    write_rows (rows ++ extra) n i = write_rows rows n i := by
  induction i with
  | zero => simp [write_rows]
  | succ j ih =>
    have hj : j < rows.length := by omega
    simp only [write_rows]
    rw [ih (by omega)]
    congr 2
    simp [List.getD_eq_getElem?_getD, List.getElem?_append_left hj]

theorem write_rows_last (rows : List (List Byte)) (row : List Byte) (n : Nat) :
    write_rows (rows ++ [row]) n (rows.length + 1) = row.take n ++ write_rows rows n rows.length := by
  simp only [write_rows]
  rw [write_rows_append rows [row] n rows.length (le_refl _)]
  congr 2
  simp [List.getD_eq_getElem?_getD]

theorem fread_bytes_full (buf : List Byte) (n : Nat) (file : List Byte) (pos : Nat)
    (h : pos + n ≤ file.length) :
    fread_bytes buf n file pos = (file.drop pos).take n ++ buf.drop n := by
  have : ((file.drop pos).take n).length = n := by simp; omega
  simp only [fread_bytes, this]

theorem take_drop_length (file : List Byte) (pos n : Nat) (h : pos + n ≤ file.length) :
    ((file.drop pos).take n).length = n := by
  simp; omega

theorem write_read_step (env : Env) (file : List Byte) (n nrgb h pos : Nat)
    (f g : List Byte → List Byte)
    (hf : ∀ a b : List Byte, a.length = n → (f (a ++ b)).take n = g a)
    (hav : pos + n ≤ file.length) :
    write_rows ((read_rows env file n nrgb (h + 1) pos).map f) n (h + 1)
      = g ((file.drop pos).take n)
        ++ write_rows ((read_rows env file n nrgb h (pos + n)).map f) n h := by
  have hlen := take_drop_length file pos n hav
  simp only [read_rows, hlen, List.map_append, List.map_cons, List.map_nil]
  have hl : ((read_rows env file n nrgb h (pos + n)).map f).length = h := by
    simp [read_rows_length]
  have := write_rows_last ((read_rows env file n nrgb h (pos + n)).map f)
    (f (fread_bytes (malloc_row env h nrgb) n file pos)) n
  rw [hl] at this
  rw [this, fread_bytes_full _ _ _ _ hav, hf _ _ hlen]

theorem write_read_scanline (env : Env) (file : List Byte) (n nrgb : Nat)
    (f g : List Byte → List Byte)
    (hf : ∀ a b : List Byte, a.length = n → (f (a ++ b)).take n = g a)
    (hg : ∀ a : List Byte, (g a).length = a.length)
    (h : Nat) : ∀ (pos k : Nat), k < h → pos + h * n ≤ file.length →
    ((write_rows ((read_rows env file n nrgb h pos).map f) n h).drop (k * n)).take n
      = g ((file.drop (pos + k * n)).take n) := by
  induction h with
  | zero => intro pos k hk; omega
  | succ i ih =>
    intro pos k hk hav
    have hav1 : pos + n ≤ file.length := by
      have : (i + 1) * n = i * n + n := by ring
      omega
    rw [write_read_step env file n nrgb i pos f g hf hav1]
    have hlen : (g ((file.drop pos).take n)).length = n := by
      rw [hg, take_drop_length file pos n hav1]
    cases k with
    | zero =>
      simp only [Nat.zero_mul, List.drop_zero, Nat.add_zero]
      rw [List.take_append_of_le_length (by omega)]
      rw [List.take_of_length_le (by omega)]
    | succ k =>
      have hk1 : (k + 1) * n = n + k * n := by ring
      rw [hk1, ← List.drop_drop]
      rw [List.drop_left' hlen]
      rw [ih (pos + n) k (by omega) (by
        have : (i + 1) * n = i * n + n := by ring
        omega)]
      congr 3
      omega

theorem write_read_id (env : Env) (file : List Byte) (n nrgb : Nat) (h : Nat) :
    ∀ pos : Nat, pos + h * n ≤ file.length →
    write_rows (read_rows env file n nrgb h pos) n h = (file.drop pos).take (h * n) := by
  induction h with
  | zero => intro pos _; simp [write_rows]
  | succ i ih =>
    intro pos hav
    have hmul : (i + 1) * n = n + i * n := by ring
    have hav1 : pos + n ≤ file.length := by omega
    have step := write_read_step env file n nrgb i pos id id
      (by intro a b hab; simp [List.take_append_of_le_length, hab]) hav1
    simp only [List.map_id] at step
    rw [step, ih (pos + n) (by omega), hmul]
    simp only [id]
    rw [List.take_add, List.drop_drop]

theorem negate_row_length (w : Nat) : ∀ row : List Byte, (negate_row w row).length = row.length := by
  induction w with
  | zero => intro row; simp [negate_row]
  | succ n ih =>
    intro row
    match row with
    | [] => simp [negate_row]
    | [_] => simp [negate_row]
    | [_, _] => simp [negate_row]
    | b :: g :: r :: rest => simp [negate_row, ih rest]

theorem negate_row_append (w : Nat) : ∀ a b : List Byte, 3 * w ≤ a.length →
    negate_row w (a ++ b) = negate_row w a ++ b := by
  induction w with
  | zero => intro a b _; simp [negate_row]
  | succ n ih =>
    intro a b h
    match a, h with
    | x :: y :: z :: rest, h =>
      have hr : 3 * n ≤ rest.length := by simp at h; omega
      simp only [List.cons_append, negate_row]
      exact congrArg _ (congrArg _ (congrArg _ (ih rest b hr)))
    | [], h => simp at h
    | [_], h => simp at h; omega
    | [_, _], h => simp at h; omega

theorem negate_row_take_stride (w n : Nat) (hw : 3 * w ≤ n) (a b : List Byte) (ha : a.length = n) :
    (negate_row w (a ++ b)).take n = negate_row w a := by
  rw [negate_row_append w a b (by omega)]
  exact List.take_left' (by rw [negate_row_length, ha])

theorem negate_row_drop (w : Nat) : ∀ row : List Byte, 3 * w ≤ row.length →
    (negate_row w row).drop (3 * w) = row.drop (3 * w) := by
  induction w with
  | zero => intro row _; simp [negate_row]
  | succ n ih =>
    intro row h
    match row, h with
    | x :: y :: z :: rest, h =>
      have h3 : 3 * (n + 1) = (3 * n + 1 + 1) + 1 := by ring
      simp only [negate_row, h3, List.drop_succ_cons]
      exact ih rest (by simp at h; omega)
    | [], h => simp at h
    | [_], h => simp at h; omega
    | [_, _], h => simp at h; omega

theorem negate_row_take (w : Nat) : ∀ row : List Byte, 3 * w ≤ row.length →
    (negate_row w row).take (3 * w) = negate_row w (row.take (3 * w)) := by
  intro row h
  have hsplit : row = row.take (3 * w) ++ row.drop (3 * w) := (List.take_append_drop _ _).symm
  have hl : (row.take (3 * w)).length = 3 * w := by simp; omega
  conv_lhs => rw [hsplit]
  rw [negate_row_append w _ _ (by omega)]
  exact List.take_left' (by rw [negate_row_length, hl])

theorem fread_bytes_length (buf : List Byte) (n : Nat) (file : List Byte) (pos : Nat)
    (h : n ≤ buf.length) : (fread_bytes buf n file pos).length = buf.length := by
  simp only [fread_bytes, List.length_append, List.length_drop, List.length_take]
  omega

theorem malloc_row_length (env : Env) (i nrgb : Nat) : (malloc_row env i nrgb).length = nrgb * 3 := by
  simp [malloc_row]

theorem read_rows_row_length (env : Env) (file : List Byte) (n nrgb : Nat) (hn : n ≤ nrgb * 3)
    (h : Nat) : ∀ pos : Nat, ∀ row ∈ read_rows env file n nrgb h pos, row.length = nrgb * 3 := by
  induction h with
  | zero => intro pos row hrow; simp [read_rows] at hrow
  | succ i ih =>
    intro pos row hrow
    simp only [read_rows, List.mem_append, List.mem_singleton] at hrow
    rcases hrow with hrow | hrow
    · exact ih _ row hrow
    · rw [hrow, fread_bytes_length _ _ _ _ (by rw [malloc_row_length]; exact hn), malloc_row_length]

theorem write_rows_length (rows : List (List Byte)) (n : Nat)
    (hrows : ∀ row ∈ rows, n ≤ row.length) :
    ∀ h : Nat, h ≤ rows.length → (write_rows rows n h).length = h * n := by
  intro h
  induction h with
  | zero => intro _; simp [write_rows]
  | succ i ih =>
    intro hi
    have hlt : i < rows.length := by omega
    have hget : rows.getD i [] = rows[i] := by
      simp [List.getD_eq_getElem?_getD, List.getElem?_eq_getElem hlt]
    have := hrows rows[i] (List.getElem_mem hlt)
    simp only [write_rows, List.length_append, List.length_take, hget, ih (by omega)]
    rw [Nat.min_eq_left this]
    ring

theorem le_value_lt : ∀ l : List Byte, le_value l < 256 ^ l.length := by
  intro l
  induction l with
  | nil => simp [le_value]
  | cons b rest ih =>
    simp only [le_value, List.length_cons, pow_succ]
    have := b.isLt
    omega

theorem le_value_take4_lt (l : List Byte) : le_value (l.take 4) < 4294967296 := by
  have h := le_value_lt (l.take 4)
  have hl : (l.take 4).length ≤ 4 := by simp
  calc le_value (l.take 4) < 256 ^ (l.take 4).length := h
    _ ≤ 256 ^ 4 := Nat.pow_le_pow_right (by norm_num) hl
    _ = 4294967296 := by norm_num

theorem to_int32_range (n : Nat) (h : n < 4294967296) :
    INT_MIN ≤ to_int32 n ∧ to_int32 n ≤ INT_MAX := by
  unfold to_int32 INT_MIN INT_MAX
  split <;> omega

theorem height_range (d : DIB_HEADER) : INT_MIN ≤ d.height ∧ d.height ≤ INT_MAX :=
  to_int32_range _ (le_value_take4_lt _)

theorem width_range (d : DIB_HEADER) : INT_MIN ≤ d.width ∧ d.width ≤ INT_MAX :=
  to_int32_range _ (le_value_take4_lt _)

theorem row_bytes_pos (w : Int) (hw : 1 ≤ w) (hr : 24 * w + 31 ≤ INT_MAX) :
    row_bytes w = some (((24 * w + 31) / 32) * 4) := by
  have h1 : in_int (24 * w) = true := by simp [in_int, INT_MIN, INT_MAX] at *; omega
  have h2 : in_int (24 * w + 31) = true := by simp [in_int, INT_MIN, INT_MAX] at *; omega
  simp [row_bytes, h1, h2]
  rw [Int.tdiv_eq_ediv (by omega) (by omega)]

theorem stride_cast (w : Int) (hw : 1 ≤ w) :
    (((24 * w + 31) / 32) * 4).toNat = stride w.toNat := by
  unfold stride
  obtain ⟨n, rfl⟩ := Int.eq_ofNat_of_zero_le (by omega : 0 ≤ w)
  simp only [Int.toNat_ofNat]
  have : ((24 * (n : Int) + 31) / 32) * 4 = (((24 * n + 31) / 32 * 4 : Nat) : Int) := by
    push_cast; rfl
  rw [this, Int.toNat_ofNat]

theorem stride_bounds (w : Nat) : 3 * w ≤ stride w ∧ stride w ≤ 3 * w + 3 ∧ stride w % 4 = 0 := by
  unfold stride
  omega

theorem read_image_positive (env : Env) (file : List Byte) (pos : Nat) (height width : Int)
    (hw : 0 < width) (hh : 0 < height) (hhr : height ≤ INT_MAX)
    (hr : 24 * width + 31 ≤ INT_MAX) :
    read_image env file pos height width =
      .ok { width := width, height := height,
            rgb := some (read_rows env file (stride width.toNat) (stride width.toNat / 3 + 1)
                          height.toNat pos) } := by
  have h1 : height ≠ 0 ∧ width ≠ 0 := ⟨by omega, by omega⟩
  have h2 : in_int (height - 1) = true := by
    simp [in_int, INT_MIN, INT_MAX] at *; omega
  have h3 : ¬ height - 1 < 0 := by omega
  have h4 : ¬ ((24 * width + 31) / 32) * 4 < 0 := by omega
  unfold read_image
  rw [if_pos h1, row_bytes_pos width (by omega) hr]
  simp only [h2, h3, h4, if_false, stride_cast width (by omega)]
  simp

theorem write_image_positive (header : BITMAP_HEADER) (dib : DIB_HEADER) (width height : Int)
    (rows : List (List Byte))
    (hw : 0 < width) (hh : 0 < height) (hhr : height ≤ INT_MAX)
    (hr : 24 * width + 31 ≤ INT_MAX) (hrows : rows.length = height.toNat) :
    write_image header dib { width := width, height := height, rgb := some rows } =
      .ok (header.name ++ header.fields ++ dib.bytes
            ++ write_rows rows (stride width.toNat) height.toNat) := by
  have h2 : in_int (height - 1) = true := by
    simp [in_int, INT_MIN, INT_MAX] at *; omega
  have h3 : ¬ height - 1 < 0 := by omega
  have h4 : ¬ ((24 * width + 31) / 32) * 4 < 0 := by omega
  have h5 : ¬ rows.length < height.toNat := by omega
  unfold write_image
  simp only [h2, h3, h5, if_false, row_bytes_pos width (by omega) hr, h4,
    stride_cast width (by omega)]
  simp

theorem image_to_negative_positive (width height : Int) (rows : List (List Byte))
    (hw : 0 < width) (hh : 0 < height) (hrows : rows.length = height.toNat) :
    image_to_negative { width := width, height := height, rgb := some rows } =
      .ok { width := width, height := height,
            rgb := some (rows.map (negate_row width.toNat)) } := by
  have h1 : ¬ (height ≤ 0 ∨ width ≤ 0) := by omega
  have h5 : ¬ rows.length < height.toNat := by omega
  unfold image_to_negative
  simp only [h1, h5, if_false]
  rw [← hrows]
  simp

/-- The run of `open_BM_file` on headers that pass the checks and announce
positive dimensions. -/
theorem open_BM_file_positive (env : Env) (file : List Byte)
    (hsig : (read_headers env file).1.name = [66, 77])
    (hfmt : check_format (read_headers env file).2 = .ok ())
    (hw : 0 < (read_headers env file).2.width) (hh : 0 < (read_headers env file).2.height)
    (hr : 24 * (read_headers env file).2.width + 31 ≤ INT_MAX) :
    open_BM_file env file =
      .ok ((read_headers env file).1.name ++ (read_headers env file).1.fields
            ++ (read_headers env file).2.bytes
            ++ write_rows
                ((read_rows env file (stride (read_headers env file).2.width.toNat)
                    (stride (read_headers env file).2.width.toNat / 3 + 1)
                    (read_headers env file).2.height.toNat
                    (read_headers env file).1.offset).map
                  (negate_row (read_headers env file).2.width.toNat))
                (stride (read_headers env file).2.width.toNat)
                (read_headers env file).2.height.toNat) := by
  have hs : check_BMP_file ((read_headers env file).1.name.getD 0 0)
      ((read_headers env file).1.name.getD 1 0) = .ok () := by
    rw [hsig]; decide
  have hhr := (height_range (read_headers env file).2).2
  unfold open_BM_file
  rw [decode_checked env file hs hfmt, read_image_positive env file _ _ _ hw hh hhr hr]
  simp only [create_negative_image]
  rw [image_to_negative_positive _ _ _ hw hh (read_rows_length _ _ _ _ _ _)]
  simp only []
  rw [write_image_positive _ _ _ _ _ hw hh hhr hr (by simp [read_rows_length])]
  simp [free_image]

/-- The run of `round_trip` on the same inputs. -/
theorem round_trip_positive (env : Env) (file : List Byte)
    (hsig : (read_headers env file).1.name = [66, 77])
    (hfmt : check_format (read_headers env file).2 = .ok ())
    (hw : 0 < (read_headers env file).2.width) (hh : 0 < (read_headers env file).2.height)
    (hr : 24 * (read_headers env file).2.width + 31 ≤ INT_MAX) :
    round_trip env file =
      .ok ((read_headers env file).1.name ++ (read_headers env file).1.fields
            ++ (read_headers env file).2.bytes
            ++ write_rows
                (read_rows env file (stride (read_headers env file).2.width.toNat)
                    (stride (read_headers env file).2.width.toNat / 3 + 1)
                    (read_headers env file).2.height.toNat
                    (read_headers env file).1.offset)
                (stride (read_headers env file).2.width.toNat)
                (read_headers env file).2.height.toNat) := by
  have hs : check_BMP_file ((read_headers env file).1.name.getD 0 0)
      ((read_headers env file).1.name.getD 1 0) = .ok () := by
    rw [hsig]; decide
  have hhr := (height_range (read_headers env file).2).2
  unfold round_trip
  rw [decode_checked env file hs hfmt, read_image_positive env file _ _ _ hw hh hhr hr]
  simp only []
  rw [write_image_positive _ _ _ _ _ hw hh hhr hr (by simp [read_rows_length])]
  simp [free_image]

theorem read_headers_eq_file_headers (env : Env) (file : List Byte) (h : 54 ≤ file.length) :
    read_headers env file = file_headers file :=
  read_headers_complete env file h

theorem headers_take (file : List Byte) :
    (file_headers file).1.name ++ (file_headers file).1.fields ++ (file_headers file).2.bytes
      = file.take 54 := by
  simp only [file_headers]
  have h1 : file.take 54 = file.take 2 ++ (file.drop 2).take 12 ++ (file.drop 14).take 40 := by
    have a : (54 : Nat) = 2 + (12 + 40) := by norm_num
    rw [a, List.take_add, List.take_add, List.drop_drop]
    simp
  rw [h1]

theorem decode_ok_headers (env : Env) (file : List Byte) (hdr : BITMAP_HEADER) (dib : DIB_HEADER)
    (img : image) (h : decode env file = .ok (hdr, dib, img)) :
    hdr = (read_headers env file).1 ∧ dib = (read_headers env file).2 := by
  unfold decode at h
  simp only [] at h
  split at h
  · simp at h
  · split at h
    · simp at h
    · split at h
      · simp at h
      · simp at h
        exact ⟨h.1.symm, h.2.1.symm⟩

theorem write_image_ok_prefix (header : BITMAP_HEADER) (dib : DIB_HEADER) (photo : image)
    (out : List Byte) (h : write_image header dib photo = .ok out) :
    ∃ body, out = header.name ++ header.fields ++ dib.bytes ++ body := by
  unfold write_image at h
  split at h
  · simp at h
  · split at h
    · exact ⟨[], by rw [List.append_nil]; exact (Except.ok.inj h).symm⟩
    · split at h
      · simp at h
      · split at h
        · simp at h
        · split at h
          · simp at h
          · split at h
            · simp at h
            · exact ⟨_, (Except.ok.inj h).symm⟩

theorem open_BM_file_ok_prefix (env : Env) (file out : List Byte)
    (h : open_BM_file env file = .ok out) :
    ∃ body, out = (read_headers env file).1.name ++ (read_headers env file).1.fields
      ++ (read_headers env file).2.bytes ++ body := by
  unfold open_BM_file at h
  split at h
  · simp at h
  · rename_i hdr dib img hdec
    obtain ⟨h1, h2⟩ := decode_ok_headers env file hdr dib img hdec
    split at h
    · simp at h
    · rename_i out1 hc
      split at h
      · simp at h
      · simp at h
        subst h h1 h2
        unfold create_negative_image at hc
        split at hc
        · simp at hc
        · exact write_image_ok_prefix _ _ _ _ hc

theorem read_image_no_grid (env : Env) (file : List Byte) (pos : Nat) (height width : Int)
    (h : width = 0 ∨ height = 0) :
    read_image env file pos height width
      = .ok { width := width, height := height, rgb := none } := by
  have : ¬ (height ≠ 0 ∧ width ≠ 0) := by
    rcases h with h | h <;> simp [h]
  unfold read_image
  rw [if_neg this]

theorem read_image_negative_height (env : Env) (file : List Byte) (pos : Nat)
    (height width : Int) (hh : height < 0) (hmin : INT_MIN < height) (hw : width ≠ 0)
    (hr1 : in_int (24 * width) = true) (hr2 : in_int (24 * width + 31) = true) :
    read_image env file pos height width
      = .ok { width := width, height := height, rgb := some [] } := by
  have h1 : height ≠ 0 ∧ width ≠ 0 := ⟨by omega, hw⟩
  have h2 : in_int (height - 1) = true := by
    simp [in_int, INT_MIN, INT_MAX] at *; omega
  have h3 : height - 1 < 0 := by omega
  unfold read_image row_bytes
  simp only [if_pos h1, hr1, hr2, Bool.and_self, if_true, h2, h3]
  simp

theorem image_to_negative_no_rows (photo : image) (hh : photo.height ≤ 0) :
    image_to_negative photo = .ok photo := by
  unfold image_to_negative
  rw [if_pos (Or.inl hh)]

theorem write_image_no_rows (header : BITMAP_HEADER) (dib : DIB_HEADER) (photo : image)
    (hh : photo.height ≤ 0) (hmin : INT_MIN < photo.height) :
    write_image header dib photo = .ok (header.name ++ header.fields ++ dib.bytes) := by
  have h2 : in_int (photo.height - 1) = true := by
    simp [in_int, INT_MIN, INT_MAX] at *; omega
  have h3 : photo.height - 1 < 0 := by omega
  unfold write_image
  simp only [h2, h3, if_true]
  simp

theorem open_BM_file_negative_height (env : Env) (file : List Byte)
    (hsig : (read_headers env file).1.name = [66, 77])
    (hfmt : check_format (read_headers env file).2 = .ok ())
    (hh : (read_headers env file).2.height < 0)
    (hmin : INT_MIN < (read_headers env file).2.height)
    (hw : (read_headers env file).2.width ≠ 0)
    (hr1 : in_int (24 * (read_headers env file).2.width) = true)
    (hr2 : in_int (24 * (read_headers env file).2.width + 31) = true) :
    open_BM_file env file =
      .ok ((read_headers env file).1.name ++ (read_headers env file).1.fields
            ++ (read_headers env file).2.bytes) := by
  have hs : check_BMP_file ((read_headers env file).1.name.getD 0 0)
      ((read_headers env file).1.name.getD 1 0) = .ok () := by
    rw [hsig]; decide
  unfold open_BM_file
  rw [decode_checked env file hs hfmt,
    read_image_negative_height env file _ _ _ hh hmin hw hr1 hr2]
  simp only [create_negative_image]
  rw [image_to_negative_no_rows _ (by simp; omega)]
  simp only []
  rw [write_image_no_rows _ _ _ (by simp; omega) (by simpa using hmin)]
  simp [free_image]

theorem scanline_after_headers (head body : List Byte) (hl : head.length = 54) (n k : Nat) :
    scanline (head ++ body) 54 n k = (body.drop (k * n)).take n := by
  unfold scanline
  rw [← List.drop_drop, ← hl, List.drop_left]

theorem scanline_length (file : List Byte) (pos n k : Nat) (h : pos + (k + 1) * n ≤ file.length) :
    (scanline file pos n k).length = n := by
  unfold scanline
  have : (k + 1) * n = k * n + n := by ring
  simp; omega

/-- The output of a run on checked headers with positive dimensions and a
complete pixel array, scanline by scanline. -/
theorem open_BM_file_scanlines (env : Env) (file : List Byte)
    (h54 : 54 ≤ file.length)
    (hsig : (file_headers file).1.name = [66, 77])
    (hfmt : check_format (file_headers file).2 = .ok ())
    (hw : 0 < (file_headers file).2.width) (hh : 0 < (file_headers file).2.height)
    (hr : 24 * (file_headers file).2.width + 31 ≤ INT_MAX)
    (hav : (file_headers file).1.offset
      + (file_headers file).2.height.toNat * stride (file_headers file).2.width.toNat
        ≤ file.length) :
    ∃ out, open_BM_file env file = .ok out ∧
      ∀ k < (file_headers file).2.height.toNat,
        scanline out 54 (stride (file_headers file).2.width.toNat) k
          = negate_row (file_headers file).2.width.toNat
              (scanline file (file_headers file).1.offset
                (stride (file_headers file).2.width.toNat) k) := by
  have hrd := read_headers_eq_file_headers env file h54
  refine ⟨_, open_BM_file_positive env file (by rw [hrd]; exact hsig) (by rw [hrd]; exact hfmt)
    (by rw [hrd]; exact hw) (by rw [hrd]; exact hh)
    (by rw [hrd]; exact hr), ?_⟩
  intro k hk
  rw [hrd]
  have hb := stride_bounds (file_headers file).2.width.toNat
  have hl : ((file_headers file).1.name ++ (file_headers file).1.fields
      ++ (file_headers file).2.bytes).length = 54 := by
    rw [headers_take file]; simp; omega
  rw [scanline_after_headers _ _ hl,
    write_read_scanline env file _ _ (negate_row (file_headers file).2.width.toNat)
      (negate_row (file_headers file).2.width.toNat)
      (fun a b hab => negate_row_take_stride _ _ hb.1 a b hab)
      (negate_row_length _) _ _ k hk hav]
  rfl

/-- The layout of the output of a run on checked headers with positive
dimensions: the 54 header bytes, then `height * stride` bytes. -/
theorem open_BM_file_layout (env : Env) (file : List Byte)
    (h54 : 54 ≤ file.length)
    (hsig : (file_headers file).1.name = [66, 77])
    (hfmt : check_format (file_headers file).2 = .ok ())
    (hw : 0 < (file_headers file).2.width) (hh : 0 < (file_headers file).2.height)
    (hr : 24 * (file_headers file).2.width + 31 ≤ INT_MAX) :
    ∃ body, open_BM_file env file = .ok (file.take 54 ++ body) ∧
      body.length = (file_headers file).2.height.toNat
        * stride (file_headers file).2.width.toNat := by
  have hrd := read_headers_eq_file_headers env file h54
  refine ⟨write_rows
      ((read_rows env file (stride (file_headers file).2.width.toNat)
          (stride (file_headers file).2.width.toNat / 3 + 1)
          (file_headers file).2.height.toNat (file_headers file).1.offset).map
        (negate_row (file_headers file).2.width.toNat))
      (stride (file_headers file).2.width.toNat) (file_headers file).2.height.toNat, ?_, ?_⟩
  · rw [open_BM_file_positive env file (by rw [hrd]; exact hsig) (by rw [hrd]; exact hfmt)
      (by rw [hrd]; exact hw) (by rw [hrd]; exact hh)
      (by rw [hrd]; exact hr), hrd, headers_take file]
  · have hrows : ∀ row ∈ (read_rows env file (stride (file_headers file).2.width.toNat)
        (stride (file_headers file).2.width.toNat / 3 + 1) (file_headers file).2.height.toNat
        (file_headers file).1.offset).map (negate_row (file_headers file).2.width.toNat),
        stride (file_headers file).2.width.toNat ≤ row.length := by
      intro row hrow
      obtain ⟨r0, hr0, rfl⟩ := List.mem_map.1 hrow
      have hn : stride (file_headers file).2.width.toNat
          ≤ (stride (file_headers file).2.width.toNat / 3 + 1) * 3 := by omega
      rw [negate_row_length, read_rows_row_length env file _ _ hn _ _ r0 hr0]
      exact hn
    exact write_rows_length _ _ hrows _ (by simp [read_rows_length])

/-- Grid row `i` of `read_rows` when all the rows are available: its first
`n` bytes are scanline `h - 1 - i` of the pixel array. -/
theorem read_rows_index (env : Env) (file : List Byte) (n nrgb : Nat) (h : Nat) :
    ∀ (pos i : Nat), i < h → pos + h * n ≤ file.length →
      ((read_rows env file n nrgb h pos).getD i []).take n = scanline file pos n (h - 1 - i) := by
  induction h with
  | zero => intro pos i hi; omega
  | succ j ih =>
    intro pos i hi hav
    have hmul : (j + 1) * n = j * n + n := by ring
    have hav1 : pos + n ≤ file.length := by omega
    have hlen := take_drop_length file pos n hav1
    simp only [read_rows, hlen]
    have hl := read_rows_length env file n nrgb j (pos + n)
    by_cases hij : i = j
    · subst hij
      have : (read_rows env file n nrgb i (pos + n)
          ++ [fread_bytes (malloc_row env i nrgb) n file pos]).getD i []
          = fread_bytes (malloc_row env i nrgb) n file pos := by
        simp [List.getD_eq_getElem?_getD, hl]
      rw [this, fread_bytes_full _ _ _ _ hav1, List.take_left' hlen]
      simp [scanline]
    · have hlt : i < j := by omega
      have : (read_rows env file n nrgb j (pos + n)
          ++ [fread_bytes (malloc_row env j nrgb) n file pos]).getD i []
          = (read_rows env file n nrgb j (pos + n)).getD i [] := by
        have hi2 : i < (read_rows env file n nrgb j (pos + n)).length := by omega
        simp [List.getD_eq_getElem?_getD, List.getElem?_append_left hi2]
      rw [this, ih (pos + n) i hlt (by omega)]
      unfold scanline
      congr 2
      have e : j + 1 - 1 - i = (j - 1 - i) + 1 := by omega
      rw [e, Nat.add_mul]
      omega

theorem read_rows_suffix (env : Env) (f1 f2 : List Byte) (n nrgb : Nat) (h : Nat) :
    ∀ (p1 p2 : Nat), f1.drop p1 = f2.drop p2 →
      read_rows env f1 n nrgb h p1 = read_rows env f2 n nrgb h p2 := by
  induction h with
  | zero => intro p1 p2 _; simp [read_rows]
  | succ j ih =>
    intro p1 p2 hd
    simp only [read_rows, fread_bytes, hd]
    congr 1
    apply ih
    rw [← List.drop_drop, ← List.drop_drop, hd]

theorem read_image_suffix (env : Env) (f1 f2 : List Byte) (pos : Nat) (height width : Int)
    (hd : f1.drop pos = f2.drop pos) :
    read_image env f1 pos height width = read_image env f2 pos height width := by
  unfold read_image
  simp only [read_rows_suffix env f1 f2 _ _ _ pos pos hd]

theorem file_headers_prefix (f1 f2 : List Byte) (h : f1.take 54 = f2.take 54) :
    file_headers f1 = file_headers f2 := by
  have e2 : f1.take 2 = f2.take 2 := by
    have := congrArg (List.take 2) h
    simpa [List.take_take] using this
  have e12 : (f1.drop 2).take 12 = (f2.drop 2).take 12 := by
    have := congrArg (fun l => (l.drop 2).take 12) h
    simpa [List.take_take, List.drop_take] using this
  have e40 : (f1.drop 14).take 40 = (f2.drop 14).take 40 := by
    have := congrArg (fun l => l.drop 14) h
    simpa [List.drop_take] using this
  simp only [file_headers, e2, e12, e40]

theorem decode_filler (env : Env) (f1 f2 : List Byte)
    (h1 : 54 ≤ f1.length) (h2 : 54 ≤ f2.length) (hp : f1.take 54 = f2.take 54)
    (hd : f1.drop (file_headers f1).1.offset = f2.drop (file_headers f1).1.offset) :
    decode env f1 = decode env f2 := by
  have e := file_headers_prefix f1 f2 hp
  unfold decode
  simp only [read_headers_eq_file_headers env f1 h1, read_headers_eq_file_headers env f2 h2, ← e,
    read_image_suffix env f1 f2 _ _ _ hd]

theorem negative_val (rgb : RGB) :
    (negative rgb).val = (765 - (rgb.red.val + rgb.green.val + rgb.blue.val)) % 256 := by
  have hr := rgb.red.isLt
  have hg := rgb.green.isLt
  have hb := rgb.blue.isLt
  unfold negative to_uchar to_schar
  simp only []
  split <;> split <;> split <;> omega

theorem negative_unsigned_val (rgb : RGB) :
    (negative_unsigned rgb).val = (765 - (rgb.red.val + rgb.green.val + rgb.blue.val)) % 256 := by
  have hr := rgb.red.isLt
  have hg := rgb.green.isLt
  have hb := rgb.blue.isLt
  unfold negative_unsigned to_uchar
  simp only []
  omega

theorem to_uchar_to_schar (b : Byte) : to_uchar (to_schar b) = b := by
  have hb := b.isLt
  apply Fin.ext
  unfold to_uchar to_schar
  simp only []
  split <;> omega

theorem negate_row_pixel (w : Nat) : ∀ (row : List Byte) (j : Nat), j < w → 3 * w ≤ row.length →
    ((negate_row w row).drop (3 * j)).take 3
      = [negative ⟨row.getD (3 * j) 0, row.getD (3 * j + 1) 0, row.getD (3 * j + 2) 0⟩,
         negative ⟨row.getD (3 * j) 0, row.getD (3 * j + 1) 0, row.getD (3 * j + 2) 0⟩,
         negative ⟨row.getD (3 * j) 0, row.getD (3 * j + 1) 0, row.getD (3 * j + 2) 0⟩] := by
  induction w with
  | zero => intro row j hj; omega
  | succ n ih =>
    intro row j hj hlen
    match row, hlen with
    | x :: y :: z :: rest, hlen =>
      cases j with
      | zero => simp [negate_row]
      | succ k =>
        have h3 : 3 * (k + 1) = (3 * k + 1 + 1) + 1 := by ring
        have hrest : 3 * n ≤ rest.length := by simp at hlen; omega
        have := ih rest k (by omega) hrest
        simp only [negate_row, h3, List.drop_succ_cons]
        rw [this]
        simp [List.getD_eq_getElem?_getD]
    | [], hlen => simp at hlen
    | [_], hlen => simp at hlen; omega
    | [_, _], hlen => simp at hlen; omega

theorem drop_after_read (file : List Byte) (pos n x : Nat) :
    file.drop (pos + ((file.drop pos).take n).length + x) = file.drop (pos + n + x) := by
  by_cases h : pos + n ≤ file.length
  · rw [take_drop_length file pos n h]
  · have h1 : ((file.drop pos).take n).length = file.length - pos := by
      simp only [List.length_take, List.length_drop]; omega
    rw [h1, List.drop_eq_nil_of_le (by omega), List.drop_eq_nil_of_le (by omega)]

theorem getD_append_last (l : List (List Byte)) (x : List Byte) (i : Nat) (h : l.length = i) :
    (l ++ [x]).getD i [] = x := by
  subst h
  simp [List.getD_eq_getElem?_getD]

theorem getD_append_lt (l l2 : List (List Byte)) (i : Nat) (h : i < l.length) :
    (l ++ l2).getD i [] = l.getD i [] := by
  simp [List.getD_eq_getElem?_getD, List.getElem?_append_left h]

/-- Grid row `i` of `read_rows`, whatever the file holds: the bytes of
scanline `h - 1 - i` that are there, then the rest of the fresh buffer. -/
theorem read_rows_buffer (env : Env) (file : List Byte) (n nrgb : Nat) (h : Nat) :
    ∀ (pos i : Nat), i < h →
      (read_rows env file n nrgb h pos).getD i []
        = scanline file pos n (h - 1 - i)
          ++ (malloc_row env i nrgb).drop (scanline file pos n (h - 1 - i)).length := by
  induction h with
  | zero => intro pos i hi; omega
  | succ j ih =>
    intro pos i hi
    simp only [read_rows]
    have hl := read_rows_length env file n nrgb j
      (pos + ((file.drop pos).take n).length)
    by_cases hij : i = j
    · subst hij
      rw [getD_append_last _ _ _ hl]
      simp [fread_bytes, scanline]
    · have hlt : i < j := by omega
      rw [getD_append_lt _ _ _ (by omega), ih _ i hlt]
      have e : scanline file (pos + ((file.drop pos).take n).length) n (j - 1 - i)
          = scanline file pos n (j + 1 - 1 - i) := by
        unfold scanline
        rw [drop_after_read]
        congr 2
        have e : j + 1 - 1 - i = (j - 1 - i) + 1 := by omega
        rw [e, Nat.add_mul]
        omega
      rw [e]

/-- The `k`-th chunk the write loop emits is the start of grid row
`h - 1 - k`. -/
theorem write_rows_chunk (rows : List (List Byte)) (n : Nat)
    (hrows : ∀ row ∈ rows, n ≤ row.length) (h : Nat) :
    h ≤ rows.length → ∀ k < h,
      ((write_rows rows n h).drop (k * n)).take n = (rows.getD (h - 1 - k) []).take n := by
  induction h with
  | zero => intro _ k hk; omega
  | succ j ih =>
    intro hj k hk
    have hlt : j < rows.length := by omega
    have hget : rows.getD j [] = rows[j] := by
      simp [List.getD_eq_getElem?_getD, List.getElem?_eq_getElem hlt]
    have hlen : ((rows.getD j []).take n).length = n := by
      rw [hget, List.length_take]
      exact Nat.min_eq_left (hrows _ (List.getElem_mem hlt))
    simp only [write_rows]
    cases k with
    | zero =>
      simp only [Nat.zero_mul, List.drop_zero, Nat.sub_zero, Nat.add_sub_cancel]
      rw [List.take_left' hlen]
    | succ k =>
      have hk1 : (k + 1) * n = n + k * n := by ring
      rw [hk1, ← List.drop_drop, List.drop_left' hlen, ih (by omega) k (by omega)]
      congr 2
      omega

/-- The run of `open_BM_file` on header structs that pass the checks and
announce positive dimensions, scanline by scanline, whatever the file holds
from `offset` on. -/
theorem open_BM_file_buffers (env : Env) (file : List Byte)
    (hsig : (read_headers env file).1.name = [66, 77])
    (hfmt : check_format (read_headers env file).2 = .ok ())
    (hw : 0 < (read_headers env file).2.width) (hh : 0 < (read_headers env file).2.height)
    (hr : 24 * (read_headers env file).2.width + 31 ≤ INT_MAX) :
    ∃ body, open_BM_file env file
        = .ok ((read_headers env file).1.name ++ (read_headers env file).1.fields
            ++ (read_headers env file).2.bytes ++ body) ∧
      body.length = (read_headers env file).2.height.toNat
        * stride (read_headers env file).2.width.toNat ∧
      ∀ k < (read_headers env file).2.height.toNat,
        (body.drop (k * stride (read_headers env file).2.width.toNat)).take
            (stride (read_headers env file).2.width.toNat)
          = (negate_row (read_headers env file).2.width.toNat
              (scanline file (read_headers env file).1.offset
                  (stride (read_headers env file).2.width.toNat) k
                ++ (malloc_row env ((read_headers env file).2.height.toNat - 1 - k)
                      (stride (read_headers env file).2.width.toNat / 3 + 1)).drop
                    (scanline file (read_headers env file).1.offset
                      (stride (read_headers env file).2.width.toNat) k).length)).take
              (stride (read_headers env file).2.width.toNat) := by
  have hb := stride_bounds (read_headers env file).2.width.toNat
  have hn : stride (read_headers env file).2.width.toNat
      ≤ (stride (read_headers env file).2.width.toNat / 3 + 1) * 3 := by omega
  have hrl := read_rows_length env file (stride (read_headers env file).2.width.toNat)
    (stride (read_headers env file).2.width.toNat / 3 + 1)
    (read_headers env file).2.height.toNat (read_headers env file).1.offset
  have hrows : ∀ row ∈ (read_rows env file (stride (read_headers env file).2.width.toNat)
      (stride (read_headers env file).2.width.toNat / 3 + 1)
      (read_headers env file).2.height.toNat
      (read_headers env file).1.offset).map (negate_row (read_headers env file).2.width.toNat),
      stride (read_headers env file).2.width.toNat ≤ row.length := by
    intro row hrow
    obtain ⟨r0, hr0, rfl⟩ := List.mem_map.1 hrow
    rw [negate_row_length, read_rows_row_length env file _ _ hn _ _ r0 hr0]
    exact hn
  refine ⟨_, open_BM_file_positive env file hsig hfmt hw hh hr,
    write_rows_length _ _ hrows _ (by simp [hrl]), ?_⟩
  intro k hk
  rw [write_rows_chunk _ _ hrows _ (by simp [hrl]) k hk]
  have hidx : (read_headers env file).2.height.toNat - 1 - k
      < (read_rows env file (stride (read_headers env file).2.width.toNat)
          (stride (read_headers env file).2.width.toNat / 3 + 1)
          (read_headers env file).2.height.toNat (read_headers env file).1.offset).length := by
    rw [hrl]; omega
  have hmap : ((read_rows env file (stride (read_headers env file).2.width.toNat)
      (stride (read_headers env file).2.width.toNat / 3 + 1)
      (read_headers env file).2.height.toNat
      (read_headers env file).1.offset).map
        (negate_row (read_headers env file).2.width.toNat)).getD
        ((read_headers env file).2.height.toNat - 1 - k) []
      = negate_row (read_headers env file).2.width.toNat
          ((read_rows env file (stride (read_headers env file).2.width.toNat)
            (stride (read_headers env file).2.width.toNat / 3 + 1)
            (read_headers env file).2.height.toNat
            (read_headers env file).1.offset).getD
              ((read_headers env file).2.height.toNat - 1 - k) []) := by
    simp [List.getD_eq_getElem?_getD, List.getElem?_eq_getElem hidx]
  rw [hmap, read_rows_buffer env file _ _ _ _ _ (by omega)]
  have e : (read_headers env file).2.height.toNat - 1
      - ((read_headers env file).2.height.toNat - 1 - k) = k := by omega
  rw [e]

/-! ## The claims -/

/-- C1: at the pixel (red=10, green=200, blue=0) the claim asks for
(red=245, green=55, blue=255); `negative` returns the single byte 43 and
`image_to_negative` stores 43 in all three channels. -/
theorem C1_negative_at_10_200_0 :
    negative ⟨0, 200, 10⟩ = 43 ∧
    image_to_negative one_pixel = .ok ⟨1, 1, some [[43, 43, 43, 0, 0, 0]]⟩ ∧
    image_to_negative one_pixel ≠ .ok ⟨1, 1, some [[255, 55, 245, 0, 0, 0]]⟩ := by
  decide

/-- C2: applying `image_to_negative` twice to the 1x1 grid holding
(red=10, green=200, blue=0) gives (124, 124, 124), not the original grid. -/
theorem C2_twice_is_not_identity :
    (image_to_negative one_pixel >>= image_to_negative)
        = .ok ⟨1, 1, some [[124, 124, 124, 0, 0, 0]]⟩ ∧
    (image_to_negative one_pixel >>= image_to_negative) ≠ .ok one_pixel := by
  decide

/-- C3 (as amended): a well-formed BMP whose pixel array starts right after
the info header (offset 54), with `24 * width + 31` within `int`, is
reproduced byte for byte by decoding followed by encoding. -/
theorem C3_round_trip_without_filler (env : Env) (file : List Byte)
    (hwf : well_formed_bmp file)
    (hoff : (file_headers file).1.offset = 54)
    (hr : 24 * (file_headers file).2.width + 31 ≤ INT_MAX) :
    round_trip env file = .ok file := by
  obtain ⟨h54, hsig, hhs, hpl, hbpp, hcomp, hw, hh, _, hlen, _⟩ := hwf
  have hrd := read_headers_eq_file_headers env file h54
  have hfmt : check_format (file_headers file).2 = .ok () :=
    (check_format_ok_iff _).2 ⟨hhs, hbpp, hcomp, hpl⟩
  rw [round_trip_positive env file (by rw [hrd]; exact hsig) (by rw [hrd]; exact hfmt)
    (by rw [hrd]; exact hw) (by rw [hrd]; exact hh)
    (by rw [hrd]; exact hr)]
  rw [hrd, hoff] at *
  rw [write_read_id env file _ _ _ 54 (by omega), headers_take file]
  have : ((file.drop 54).take ((file_headers file).2.height.toNat
      * stride (file_headers file).2.width.toNat)) = file.drop 54 := by
    apply List.take_of_length_le
    simp; omega
  rw [this, List.take_append_drop]

/-- C3 (witness): the 1x1 image with offset 54 and zero padding. -/
theorem C3_round_trip_without_filler_witness :
    well_formed_bmp plain_bmp ∧ round_trip zero_env plain_bmp = .ok plain_bmp :=
  ⟨by decide, C3_round_trip_without_filler zero_env plain_bmp (by decide) (by decide) (by decide)⟩

/-- C3 (counterexample): a well-formed 1x1 BMP with one filler byte before
the pixel array (offset 55) is not reproduced: the filler byte is dropped. -/
theorem C3_filler_not_reproduced :
    well_formed_bmp filler_bmp ∧
    round_trip zero_env filler_bmp
      = .ok (bmp_headers 66 77 59 55 40 1 1 1 24 0 ++ [0, 200, 10, 0]) ∧
    round_trip zero_env filler_bmp ≠ .ok filler_bmp := by
  decide

/-- C4: whenever the conversion returns, the first 14 bytes of the output are
the 14 bytes of the file header as read and the next 40 bytes are the info
header as read; for an input that holds all 54 header bytes these are bytes
0..13 and 14..53 of the input. -/
theorem C4_headers_pass_through (env : Env) (file out : List Byte)
    (h : open_BM_file env file = .ok out) :
    out.take 14 = (read_headers env file).1.name ++ (read_headers env file).1.fields ∧
    (out.drop 14).take 40 = (read_headers env file).2.bytes ∧
    (54 ≤ file.length →
      out.take 14 = file.take 14 ∧ (out.drop 14).take 40 = (file.drop 14).take 40) := by
  obtain ⟨body, hb⟩ := open_BM_file_ok_prefix env file out h
  obtain ⟨l1, l2, l3⟩ := read_headers_lengths env file
  have hl : ((read_headers env file).1.name ++ (read_headers env file).1.fields).length = 14 := by
    simp [l1, l2]
  have t14 : out.take 14
      = (read_headers env file).1.name ++ (read_headers env file).1.fields := by
    rw [hb, List.append_assoc, List.append_assoc, ← List.append_assoc]
    exact List.take_left' hl
  have t40 : (out.drop 14).take 40 = (read_headers env file).2.bytes := by
    rw [hb, List.append_assoc, List.append_assoc, ← List.append_assoc, List.drop_left' hl]
    exact List.take_left' l3
  refine ⟨t14, t40, ?_⟩
  intro h54
  rw [t14, t40, read_headers_complete env file h54]
  refine ⟨?_, rfl⟩
  have a : (14 : Nat) = 2 + 12 := by norm_num
  simp only []
  rw [a, List.take_add]

/-- C4 (witness): the 1x1 image. -/
theorem C4_headers_pass_through_witness :
    (headers_1x1 ++ [43, 43, 43, 255]).take 14 = padded_bmp.take 14 ∧
    ((headers_1x1 ++ [43, 43, 43, 255]).drop 14).take 40 = (padded_bmp.drop 14).take 40 :=
  (C4_headers_pass_through zero_env padded_bmp (headers_1x1 ++ [43, 43, 43, 255])
    (by decide)).2.2 (by decide)

/-- C5: for a width `w` of at least 1 with `24 * w + 31` within `int`, the row
size `((24 * w + 31) / 32) * 4` that `read_image` and `create_negative_image`
compute is the least multiple of 4 that is at least `3 * w`, so it exceeds
`3 * w` by at most 3; width 1 gives 4 and width 4 gives 12. -/
theorem C5_row_stride (w : Int) (hw : 1 ≤ w) (hr : 24 * w + 31 ≤ INT_MAX) :
    ∃ s : Int, row_bytes w = some s ∧ s % 4 = 0 ∧ 3 * w ≤ s ∧ s - 3 * w ≤ 3 ∧
      (∀ m : Int, m % 4 = 0 → 3 * w ≤ m → s ≤ m) ∧
      row_bytes 1 = some 4 ∧ row_bytes 4 = some 12 := by
  refine ⟨((24 * w + 31) / 32) * 4, row_bytes_pos w hw hr, ?_, ?_, ?_, ?_, by decide, by decide⟩
  · omega
  · omega
  · omega
  · intro m hm h3; omega

/-- C5 (witness): width 5, stride 16. -/
theorem C5_row_stride_witness :
    ∃ s : Int, row_bytes 5 = some s ∧ s % 4 = 0 ∧ 3 * 5 ≤ s ∧ s - 3 * 5 ≤ 3 ∧
      (∀ m : Int, m % 4 = 0 → 3 * 5 ≤ m → s ≤ m) ∧
      row_bytes 1 = some 4 ∧ row_bytes 4 = some 12 :=
  C5_row_stride 5 (by decide) (by decide)

/-- C6: with the signature 'B','M' read, the conversion ends in `exit(-1)` exactly
when header_size is not 40, bits_per_pixel is not 24, compression is not 0 or
color_planes is not 1; the exit is the one of the failing check, which runs
before the seek, before `read_image` and before the output is written.
bits_per_pixel = 8 and compression = 1 are rejected. -/
theorem C6_unsupported_format_rejected (env : Env) (file : List Byte)
    (hsig : (read_headers env file).1.name = [66, 77]) :
    ((∃ d, open_BM_file env file = .error (.exit_failure d)) ↔
      ((read_headers env file).2.header_size ≠ 40 ∨
        (read_headers env file).2.bits_per_pixel ≠ 24 ∨
        (read_headers env file).2.compression ≠ 0 ∨
        (read_headers env file).2.color_planes ≠ 1)) ∧
    (∀ d, open_BM_file env file = .error (.exit_failure d) →
      check_format (read_headers env file).2 = .error (.exit_failure d) ∧
      decode env file = .error (.exit_failure d)) ∧
    (∃ d, check_bits_per_pixel 8 = .error (.exit_failure d)) ∧
    (∃ d, check_compression 1 = .error (.exit_failure d)) := by
  have hs : check_BMP_file ((read_headers env file).1.name.getD 0 0)
      ((read_headers env file).1.name.getD 1 0) = .ok () := by
    rw [hsig]; decide
  have key : ∀ d, open_BM_file env file = .error (.exit_failure d) →
      check_format (read_headers env file).2 = .error (.exit_failure d) ∧
      decode env file = .error (.exit_failure d) := by
    intro d hd
    have hdec := open_BM_file_exit_failure env file d hd
    rcases decode_exit_failure env file d hdec with h1 | ⟨_, h2⟩
    · rw [hs] at h1; simp at h1
    · exact ⟨h2, hdec⟩
  refine ⟨⟨?_, ?_⟩, key, ⟨_, rfl⟩, ⟨_, rfl⟩⟩
  · rintro ⟨d, hd⟩
    have hf := (key d hd).1
    by_contra hcon
    have hok : check_format (read_headers env file).2 = .ok () := by
      rw [check_format_ok_iff]
      simp only [not_or, not_not] at hcon
      exact ⟨hcon.1, hcon.2.1, hcon.2.2.1, hcon.2.2.2⟩
    rw [hok] at hf; simp at hf
  · intro hbad
    rcases check_format_cases (read_headers env file).2 with hf | ⟨d, hf⟩
    · rw [check_format_ok_iff] at hf
      omega
    · exact ⟨d, open_BM_file_of_decode_error env file _ (decode_format_error env file _ hs hf)⟩

/-- C6 (witness): headers with bits_per_pixel = 8 make the conversion fail. -/
theorem C6_unsupported_format_rejected_witness :
    ∃ d, open_BM_file zero_env eight_bit_bmp = .error (.exit_failure d) :=
  (C6_unsupported_format_rejected zero_env eight_bit_bmp (by decide)).1.2
    (Or.inr (Or.inl (by decide)))

/-- C7: `check_BMP_file` ends the run exactly when the first byte is not 'B'
(66) or the second is not 'M' (77); "BZ" is rejected and "BM" is accepted; and
a rejected signature makes the whole conversion end with that `exit(-1)`. -/
theorem C7_signature_rejection (c1 c2 : Byte) :
    ((∃ d, check_BMP_file c1 c2 = .error (.exit_failure d)) ↔ (c1 ≠ 66 ∨ c2 ≠ 77)) ∧
    (check_BMP_file c1 c2 = .ok () ↔ (c1 = 66 ∧ c2 = 77)) ∧
    (∃ d, check_BMP_file 66 90 = .error (.exit_failure d)) ∧
    check_BMP_file 66 77 = .ok () ∧
    (∀ (env : Env) (file : List Byte) (e : Fault),
      check_BMP_file ((read_headers env file).1.name.getD 0 0)
        ((read_headers env file).1.name.getD 1 0) = .error e →
      open_BM_file env file = .error e) := by
  refine ⟨?_, check_BMP_file_ok_iff c1 c2, ⟨_, rfl⟩, rfl, ?_⟩
  · unfold check_BMP_file
    by_cases h1 : c1 = 66 <;> by_cases h2 : c2 = 77 <;> simp [h1, h2]
  · intro env file e he
    exact open_BM_file_of_decode_error env file e (decode_signature_error env file e he)

/-- C7 (witness): the file with signature "BZ" makes the conversion fail. -/
theorem C7_signature_rejection_witness :
    open_BM_file zero_env bz_bmp = .error (.exit_failure
      (some "ERROR: Could not process file!\n->File format must be for BMP format (.bmp)")) :=
  (C7_signature_rejection 66 90).2.2.2.2 zero_env bz_bmp _ (by decide)

/-- C8 (as amended): a negative height is not rejected.  When the header
structs pass the signature and format checks and announce a height below 0
(above INT_MIN), a width other than 0 and `24 * width`, `24 * width + 31`
within `int`, `read_image` reads nothing and returns a grid without rows, and
the conversion returns normally, the output being exactly the 54 bytes of the
header structs. -/
theorem C8_negative_height_not_rejected (env : Env) (file : List Byte)
    (hsig : (read_headers env file).1.name = [66, 77])
    (hfmt : check_format (read_headers env file).2 = .ok ())
    (hh : (read_headers env file).2.height < 0)
    (hmin : INT_MIN < (read_headers env file).2.height)
    (hw : (read_headers env file).2.width ≠ 0)
    (hr1 : in_int (24 * (read_headers env file).2.width) = true)
    (hr2 : in_int (24 * (read_headers env file).2.width + 31) = true) :
    read_image env file (read_headers env file).1.offset (read_headers env file).2.height
        (read_headers env file).2.width
      = .ok { width := (read_headers env file).2.width,
              height := (read_headers env file).2.height, rgb := some [] } ∧
    open_BM_file env file =
      .ok ((read_headers env file).1.name ++ (read_headers env file).1.fields
            ++ (read_headers env file).2.bytes) ∧
    ((read_headers env file).1.name ++ (read_headers env file).1.fields
      ++ (read_headers env file).2.bytes).length = 54 ∧
    (54 ≤ file.length → open_BM_file env file = .ok (file.take 54)) := by
  obtain ⟨l1, l2, l3⟩ := read_headers_lengths env file
  have hopen := open_BM_file_negative_height env file hsig hfmt hh hmin hw hr1 hr2
  refine ⟨read_image_negative_height env file _ _ _ hh hmin hw hr1 hr2, hopen, ?_, ?_⟩
  · simp [l1, l2, l3]
  · intro h54
    rw [hopen, read_headers_eq_file_headers env file h54, headers_take file]

/-- C8 (witness): the headers announcing width 1 and height -1 are copied to
the output and the conversion returns. -/
theorem C8_negative_height_not_rejected_witness :
    open_BM_file zero_env negative_height_bmp = .ok (negative_height_bmp.take 54) :=
  (C8_negative_height_not_rejected zero_env negative_height_bmp (by decide) (by decide)
    (by decide) (by decide) (by decide) (by decide) (by decide)).2.2.2 (by decide)

/-- C8 (counterexample): the headers pass the signature and format checks and
announce height -1, yet the conversion does not fail: it returns and has
written 54 bytes of output. -/
theorem C8_negative_height_accepted :
    (read_headers zero_env negative_height_bmp).1.name = [66, 77] ∧
    check_format (read_headers zero_env negative_height_bmp).2 = .ok () ∧
    (read_headers zero_env negative_height_bmp).2.height = -1 ∧
    (read_headers zero_env negative_height_bmp).2.height ≤ 0 ∧
    open_BM_file zero_env negative_height_bmp = .ok negative_height_bmp ∧
    negative_height_bmp.length = 54 := by
  decide

/-- C9 (as amended): truncated input is not detected.  Whenever the header
structs, as the header reads leave them, pass the signature and format checks
and announce positive width and height with `24 * width + 31` within `int`,
the conversion returns, however few bytes the input holds.  The output is the
54 bytes of the header structs followed by `height` scanlines of `stride`
bytes; the `k`-th scanline written is the first `stride` bytes of the
transformed row buffer, and that buffer holds the bytes of the `k`-th input
scanline that were available, followed by what the freshly allocated buffer
held before the read. -/
theorem C9_truncation_not_detected (env : Env) (file : List Byte)
    (hsig : (read_headers env file).1.name = [66, 77])
    (hfmt : check_format (read_headers env file).2 = .ok ())
    (hw : 0 < (read_headers env file).2.width) (hh : 0 < (read_headers env file).2.height)
    (hr : 24 * (read_headers env file).2.width + 31 ≤ INT_MAX) :
    ∃ out, open_BM_file env file = .ok out ∧
      out.take 54 = (read_headers env file).1.name ++ (read_headers env file).1.fields
        ++ (read_headers env file).2.bytes ∧
      (54 ≤ file.length → out.take 54 = file.take 54) ∧
      out.length = 54 + (read_headers env file).2.height.toNat
        * stride (read_headers env file).2.width.toNat ∧
      ∀ k < (read_headers env file).2.height.toNat,
        scanline out 54 (stride (read_headers env file).2.width.toNat) k
          = (negate_row (read_headers env file).2.width.toNat
              (scanline file (read_headers env file).1.offset
                  (stride (read_headers env file).2.width.toNat) k
                ++ (malloc_row env ((read_headers env file).2.height.toNat - 1 - k)
                      (stride (read_headers env file).2.width.toNat / 3 + 1)).drop
                    (scanline file (read_headers env file).1.offset
                      (stride (read_headers env file).2.width.toNat) k).length)).take
              (stride (read_headers env file).2.width.toNat) := by
  obtain ⟨l1, l2, l3⟩ := read_headers_lengths env file
  have hl : ((read_headers env file).1.name ++ (read_headers env file).1.fields
      ++ (read_headers env file).2.bytes).length = 54 := by
    simp [l1, l2, l3]
  obtain ⟨body, hout, hlen, hk⟩ := open_BM_file_buffers env file hsig hfmt hw hh hr
  have ht : ((read_headers env file).1.name ++ (read_headers env file).1.fields
      ++ (read_headers env file).2.bytes ++ body).take 54
      = (read_headers env file).1.name ++ (read_headers env file).1.fields
        ++ (read_headers env file).2.bytes := List.take_left' hl
  refine ⟨_, hout, ht, ?_, ?_, ?_⟩
  · intro h54
    rw [ht, read_headers_eq_file_headers env file h54, headers_take file]
  · rw [List.length_append, hl, hlen]
  · intro k hk1
    rw [scanline_after_headers _ _ hl]
    exact hk k hk1

/-- C9 (witness): the file that ends right after the headers of a 1x1 image,
with row memory that held the byte 170. -/
theorem C9_truncation_not_detected_witness :
    open_BM_file aa_env headers_1x1 = .ok (headers_1x1 ++ [255, 255, 255, 170]) ∧
    ∃ out, open_BM_file aa_env headers_1x1 = .ok out ∧
      out.take 54 = (read_headers aa_env headers_1x1).1.name
        ++ (read_headers aa_env headers_1x1).1.fields
        ++ (read_headers aa_env headers_1x1).2.bytes ∧
      (54 ≤ headers_1x1.length → out.take 54 = headers_1x1.take 54) ∧
      out.length = 54 + (read_headers aa_env headers_1x1).2.height.toNat
        * stride (read_headers aa_env headers_1x1).2.width.toNat ∧
      ∀ k < (read_headers aa_env headers_1x1).2.height.toNat,
        scanline out 54 (stride (read_headers aa_env headers_1x1).2.width.toNat) k
          = (negate_row (read_headers aa_env headers_1x1).2.width.toNat
              (scanline headers_1x1 (read_headers aa_env headers_1x1).1.offset
                  (stride (read_headers aa_env headers_1x1).2.width.toNat) k
                ++ (malloc_row aa_env ((read_headers aa_env headers_1x1).2.height.toNat - 1 - k)
                      (stride (read_headers aa_env headers_1x1).2.width.toNat / 3 + 1)).drop
                    (scanline headers_1x1 (read_headers aa_env headers_1x1).1.offset
                      (stride (read_headers aa_env headers_1x1).2.width.toNat) k).length)).take
              (stride (read_headers aa_env headers_1x1).2.width.toNat) :=
  ⟨by decide,
    C9_truncation_not_detected aa_env headers_1x1 (by decide) (by decide) (by decide)
      (by decide) (by decide)⟩

/-- C9 (counterexample): two truncated inputs that are converted.  The first
has 53 bytes, one less than the headers need: the info header read comes up
short, the checks pass on what was read, and 58 bytes are written.  The second
ends right after the 54 header bytes of a 1x1 image, so none of the 4 bytes of
its scanline is there: with a row buffer that held the byte 170 the pixel is
written as 255, 255, 255 and the padding byte as 170. -/
theorem C9_truncated_inputs_converted :
    short_header_bmp.length = 53 ∧
    open_BM_file zero_env short_header_bmp = .ok (headers_1x1 ++ [253, 253, 253, 0]) ∧
    headers_1x1.length = 54 ∧
    headers_1x1.length < (file_headers headers_1x1).1.offset
      + (file_headers headers_1x1).2.height.toNat
        * stride (file_headers headers_1x1).2.width.toNat ∧
    open_BM_file aa_env headers_1x1 = .ok (headers_1x1 ++ [255, 255, 255, 170]) := by
  decide

/-- C10 (as amended): for a bitmap with positive width and height whose
pixel array is complete, every scanline the encoder writes has `stride`
bytes: `width` pixels of 3 bytes each, the transformed pixels of the input
scanline at the same disk position, followed by the `stride - 3 * width`
padding bytes of that input scanline, copied unchanged. -/
theorem C10_padding_copied (env : Env) (file : List Byte)
    (h54 : 54 ≤ file.length)
    (hsig : (file_headers file).1.name = [66, 77])
    (hfmt : check_format (file_headers file).2 = .ok ())
    (hw : 0 < (file_headers file).2.width) (hh : 0 < (file_headers file).2.height)
    (hr : 24 * (file_headers file).2.width + 31 ≤ INT_MAX)
    (hav : (file_headers file).1.offset
      + (file_headers file).2.height.toNat * stride (file_headers file).2.width.toNat
        ≤ file.length) :
    ∃ out, open_BM_file env file = .ok out ∧
      ∀ k < (file_headers file).2.height.toNat,
        (scanline out 54 (stride (file_headers file).2.width.toNat) k).length
          = stride (file_headers file).2.width.toNat ∧
        (scanline out 54 (stride (file_headers file).2.width.toNat) k).take
            (3 * (file_headers file).2.width.toNat)
          = negate_row (file_headers file).2.width.toNat
              ((scanline file (file_headers file).1.offset
                (stride (file_headers file).2.width.toNat) k).take
                  (3 * (file_headers file).2.width.toNat)) ∧
        (scanline out 54 (stride (file_headers file).2.width.toNat) k).drop
            (3 * (file_headers file).2.width.toNat)
          = (scanline file (file_headers file).1.offset
              (stride (file_headers file).2.width.toNat) k).drop
                (3 * (file_headers file).2.width.toNat) := by
  have hrd := read_headers_eq_file_headers env file h54
  refine ⟨_, open_BM_file_positive env file (by rw [hrd]; exact hsig) (by rw [hrd]; exact hfmt)
    (by rw [hrd]; exact hw) (by rw [hrd]; exact hh)
    (by rw [hrd]; exact hr), ?_⟩
  intro k hk
  rw [hrd]
  have hb := stride_bounds (file_headers file).2.width.toNat
  have hl : ((file_headers file).1.name ++ (file_headers file).1.fields
      ++ (file_headers file).2.bytes).length = 54 := by
    rw [headers_take file]; simp; omega
  rw [scanline_after_headers _ _ hl,
    write_read_scanline env file _ _ (negate_row (file_headers file).2.width.toNat)
      (negate_row (file_headers file).2.width.toNat)
      (fun a b hab => negate_row_take_stride _ _ hb.1 a b hab)
      (negate_row_length _) _ _ k hk hav]
  have hmul : (k + 1) * stride (file_headers file).2.width.toNat
      ≤ (file_headers file).2.height.toNat * stride (file_headers file).2.width.toNat :=
    Nat.mul_le_mul_right _ (by omega)
  have hsl := scanline_length file (file_headers file).1.offset
    (stride (file_headers file).2.width.toNat) k (by omega)
  have hfold : (file.drop ((file_headers file).1.offset
      + k * stride (file_headers file).2.width.toNat)).take
        (stride (file_headers file).2.width.toNat)
      = scanline file (file_headers file).1.offset
          (stride (file_headers file).2.width.toNat) k := rfl
  rw [hfold]
  refine ⟨by rw [negate_row_length, hsl], negate_row_take _ _ (by omega),
    negate_row_drop _ _ (by omega)⟩

/-- C10 (witness): the 1x1 image with padding byte 255. -/
theorem C10_padding_copied_witness :
    ∃ out, open_BM_file zero_env padded_bmp = .ok out ∧
      ∀ k < (file_headers padded_bmp).2.height.toNat,
        (scanline out 54 (stride (file_headers padded_bmp).2.width.toNat) k).length
          = stride (file_headers padded_bmp).2.width.toNat ∧
        (scanline out 54 (stride (file_headers padded_bmp).2.width.toNat) k).take
            (3 * (file_headers padded_bmp).2.width.toNat)
          = negate_row (file_headers padded_bmp).2.width.toNat
              ((scanline padded_bmp (file_headers padded_bmp).1.offset
                (stride (file_headers padded_bmp).2.width.toNat) k).take
                  (3 * (file_headers padded_bmp).2.width.toNat)) ∧
        (scanline out 54 (stride (file_headers padded_bmp).2.width.toNat) k).drop
            (3 * (file_headers padded_bmp).2.width.toNat)
          = (scanline padded_bmp (file_headers padded_bmp).1.offset
              (stride (file_headers padded_bmp).2.width.toNat) k).drop
                (3 * (file_headers padded_bmp).2.width.toNat) :=
  C10_padding_copied zero_env padded_bmp (by decide) (by decide) (by decide) (by decide)
    (by decide) (by decide) (by decide)

/-- C10 (counterexample): the input scanline of the 1x1 image ends in the
padding byte 255; the scanline written ends in 255 as well, not in zero. -/
theorem C10_padding_not_zeroed :
    open_BM_file zero_env padded_bmp = .ok (headers_1x1 ++ [43, 43, 43, 255]) ∧
    scanline (headers_1x1 ++ [43, 43, 43, 255]) 54 (stride 1) 0 = [43, 43, 43, 255] ∧
    (scanline (headers_1x1 ++ [43, 43, 43, 255]) 54 (stride 1) 0).drop (3 * 1)
      ≠ List.replicate (stride 1 - 3 * 1) 0 := by
  decide

/-- C11: for an accepted image with positive width and height and a complete
pixel array, the `k`-th scanline of the output pixel array (which starts at
byte 54) is the transform of the `k`-th scanline of the input pixel array
(which starts at `offset`), for every `k` below the height; the scanline
stored first is written first. -/
theorem C11_disk_row_order_preserved (env : Env) (file : List Byte)
    (h54 : 54 ≤ file.length)
    (hsig : (file_headers file).1.name = [66, 77])
    (hfmt : check_format (file_headers file).2 = .ok ())
    (hw : 0 < (file_headers file).2.width) (hh : 0 < (file_headers file).2.height)
    (hr : 24 * (file_headers file).2.width + 31 ≤ INT_MAX)
    (hav : (file_headers file).1.offset
      + (file_headers file).2.height.toNat * stride (file_headers file).2.width.toNat
        ≤ file.length) :
    ∃ out, open_BM_file env file = .ok out ∧
      (∀ k < (file_headers file).2.height.toNat,
        scanline out 54 (stride (file_headers file).2.width.toNat) k
          = negate_row (file_headers file).2.width.toNat
              (scanline file (file_headers file).1.offset
                (stride (file_headers file).2.width.toNat) k)) ∧
      scanline out 54 (stride (file_headers file).2.width.toNat) 0
        = negate_row (file_headers file).2.width.toNat
            (scanline file (file_headers file).1.offset
              (stride (file_headers file).2.width.toNat) 0) := by
  obtain ⟨out, hout, hk⟩ := open_BM_file_scanlines env file h54 hsig hfmt hw hh hr hav
  exact ⟨out, hout, hk, hk 0 (by omega)⟩

/-- C11 (witness): the 1x2 image; the pixel stored first gives the byte 43,
the pixel stored second the byte 247, and the output holds them in that
order. -/
theorem C11_disk_row_order_preserved_witness :
    open_BM_file zero_env two_row_bmp
        = .ok (two_row_bmp.take 54 ++ [43, 43, 43, 0] ++ [247, 247, 247, 0]) ∧
    ∃ out, open_BM_file zero_env two_row_bmp = .ok out ∧
      (∀ k < (file_headers two_row_bmp).2.height.toNat,
        scanline out 54 (stride (file_headers two_row_bmp).2.width.toNat) k
          = negate_row (file_headers two_row_bmp).2.width.toNat
              (scanline two_row_bmp (file_headers two_row_bmp).1.offset
                (stride (file_headers two_row_bmp).2.width.toNat) k)) ∧
      scanline out 54 (stride (file_headers two_row_bmp).2.width.toNat) 0
        = negate_row (file_headers two_row_bmp).2.width.toNat
            (scanline two_row_bmp (file_headers two_row_bmp).1.offset
              (stride (file_headers two_row_bmp).2.width.toNat) 0) :=
  ⟨by decide,
    C11_disk_row_order_preserved zero_env two_row_bmp (by decide) (by decide) (by decide)
      (by decide) (by decide) (by decide) (by decide)⟩

/-- C12 (as amended): for positive width and height (`24 * width + 31`
within `int`) and a complete pixel array starting at `pos`, `read_image`
returns a grid of `height` rows in which row `i` starts with the scanline
`height - 1 - i` in disk order: row `height - 1` holds the scanline stored
first (the bottom row) and row 0 the scanline stored last (the top row). -/
theorem C12_grid_rows_reverse_disk_order (env : Env) (file : List Byte) (pos : Nat)
    (height width : Int)
    (hw : 0 < width) (hh : 0 < height) (hhr : height ≤ INT_MAX)
    (hr : 24 * width + 31 ≤ INT_MAX)
    (hav : pos + height.toNat * stride width.toNat ≤ file.length) :
    ∃ rows, read_image env file pos height width
        = .ok { width := width, height := height, rgb := some rows } ∧
      rows.length = height.toNat ∧
      (∀ i < height.toNat,
        (rows.getD i []).take (stride width.toNat)
          = scanline file pos (stride width.toNat) (height.toNat - 1 - i)) ∧
      (rows.getD (height.toNat - 1) []).take (stride width.toNat)
        = scanline file pos (stride width.toNat) 0 ∧
      (rows.getD 0 []).take (stride width.toNat)
        = scanline file pos (stride width.toNat) (height.toNat - 1) := by
  have hpos : 0 < height.toNat := by omega
  have key := read_rows_index env file (stride width.toNat) (stride width.toNat / 3 + 1)
    height.toNat pos
  refine ⟨_, read_image_positive env file pos height width hw hh hhr hr,
    read_rows_length _ _ _ _ _ _, fun i hi => key i hi hav, ?_, ?_⟩
  · have := key (height.toNat - 1) (by omega) hav
    rw [this]
    congr 1
    omega
  · have := key 0 hpos hav
    rw [this, Nat.sub_zero]

/-- C12 (witness): the 1x2 image. -/
theorem C12_grid_rows_reverse_disk_order_witness :
    ∃ rows, read_image zero_env two_row_bmp 54 2 1
        = .ok { width := 1, height := 2, rgb := some rows } ∧
      rows.length = (2 : Int).toNat ∧
      (∀ i < (2 : Int).toNat,
        (rows.getD i []).take (stride (1 : Int).toNat)
          = scanline two_row_bmp 54 (stride (1 : Int).toNat) ((2 : Int).toNat - 1 - i)) ∧
      (rows.getD ((2 : Int).toNat - 1) []).take (stride (1 : Int).toNat)
        = scanline two_row_bmp 54 (stride (1 : Int).toNat) 0 ∧
      (rows.getD 0 []).take (stride (1 : Int).toNat)
        = scanline two_row_bmp 54 (stride (1 : Int).toNat) ((2 : Int).toNat - 1) :=
  C12_grid_rows_reverse_disk_order zero_env two_row_bmp 54 2 1 (by decide) (by decide)
    (by decide) (by decide) (by decide)

/-- C12 (counterexample): in the 1x2 image the scanline stored first is
(blue=0, green=200, red=10) and the second is (blue=3, green=2, red=1); after
`read_image` grid row 0 holds the second one and grid row 1 the first. -/
theorem C12_grid_row_0_is_last_scanline :
    scanline two_row_bmp 54 4 0 = [0, 200, 10, 0] ∧
    scanline two_row_bmp 54 4 1 = [3, 2, 1, 0] ∧
    read_image zero_env two_row_bmp 54 2 1
      = .ok { width := 1, height := 2,
              rgb := some [[3, 2, 1, 0, 0, 0], [0, 200, 10, 0, 0, 0]] } ∧
    ([3, 2, 1, 0, 0, 0] : List Byte).take 4 ≠ scanline two_row_bmp 54 4 0 := by
  decide

/-- C13: two inputs that hold the same 54 header bytes and the same bytes
from position `offset` onward give the same decoding result (headers and pixel
grid) and the same conversion result (the bytes written), whatever bytes lie
between position 54 and `offset`. -/
theorem C13_filler_not_interpreted (env : Env) (f1 f2 : List Byte)
    (h1 : 54 ≤ f1.length) (h2 : 54 ≤ f2.length) (hp : f1.take 54 = f2.take 54)
    (hd : f1.drop (file_headers f1).1.offset = f2.drop (file_headers f1).1.offset) :
    decode env f1 = decode env f2 ∧ open_BM_file env f1 = open_BM_file env f2 := by
  have hdec := decode_filler env f1 f2 h1 h2 hp hd
  refine ⟨hdec, ?_⟩
  unfold open_BM_file
  rw [hdec]

/-- C13 (witness): two 1x1 images with offset 55 that differ in the filler
byte at position 54 only; both pass validation and give the same output. -/
theorem C13_filler_not_interpreted_witness :
    filler_bmp ≠ filler_bmp_other ∧
    check_format (file_headers filler_bmp).2 = .ok () ∧
    open_BM_file zero_env filler_bmp
      = .ok (filler_bmp.take 54 ++ [43, 43, 43, 0]) ∧
    decode zero_env filler_bmp = decode zero_env filler_bmp_other ∧
    open_BM_file zero_env filler_bmp = open_BM_file zero_env filler_bmp_other :=
  ⟨by decide, by decide, by decide,
    C13_filler_not_interpreted zero_env filler_bmp filler_bmp_other (by decide) (by decide)
      (by decide) (by decide)⟩

/-- C14 (as amended): the offset field is not validated.  The conversion
ends with `exit(-1)` exactly when the signature check or one of the format
checks fails, whatever the offset field holds; and an input that passes these
checks with an offset below 54 (positive width and height, `24 * width + 31`
within `int`) is converted: the output is the 54 header bytes followed by
`height * stride` bytes, and when `height * stride` bytes are available from
the offset position, the `k`-th scanline written is the transform of the
`stride` bytes at position `offset + k * stride` of the input, which lie
inside the headers as far as they lie below byte 54. -/
theorem C14_offset_not_validated (env : Env) (file : List Byte) (h54 : 54 ≤ file.length) :
    ((∃ d, open_BM_file env file = .error (.exit_failure d)) ↔
      ((file_headers file).1.name ≠ [66, 77] ∨ check_format (file_headers file).2 ≠ .ok ())) ∧
    ((file_headers file).1.name = [66, 77] → check_format (file_headers file).2 = .ok () →
      (file_headers file).1.offset < 54 →
      0 < (file_headers file).2.width → 0 < (file_headers file).2.height →
      24 * (file_headers file).2.width + 31 ≤ INT_MAX →
      ∃ body, open_BM_file env file = .ok (file.take 54 ++ body) ∧
        body.length = (file_headers file).2.height.toNat
          * stride (file_headers file).2.width.toNat ∧
        ((file_headers file).1.offset
            + (file_headers file).2.height.toNat * stride (file_headers file).2.width.toNat
              ≤ file.length →
          ∀ k < (file_headers file).2.height.toNat,
            scanline (file.take 54 ++ body) 54 (stride (file_headers file).2.width.toNat) k
              = negate_row (file_headers file).2.width.toNat
                  (scanline file (file_headers file).1.offset
                    (stride (file_headers file).2.width.toNat) k))) := by
  have hrd := read_headers_eq_file_headers env file h54
  have hname : (file_headers file).1.name.length = 2 := by
    have := (read_headers_lengths env file).1
    rw [hrd] at this; exact this
  have hsig_iff : check_BMP_file ((file_headers file).1.name.getD 0 0)
      ((file_headers file).1.name.getD 1 0) = .ok () ↔ (file_headers file).1.name = [66, 77] := by
    rw [check_BMP_file_ok_iff]
    match hn : (file_headers file).1.name, hname with
    | [a, b], _ => simp
  refine ⟨⟨?_, ?_⟩, ?_⟩
  · rintro ⟨d, hd⟩
    have hdec := open_BM_file_exit_failure env file d hd
    rcases decode_exit_failure env file d hdec with hs | ⟨_, hf⟩
    · left
      rw [hrd] at hs
      intro hn
      rw [hsig_iff.2 hn] at hs
      simp at hs
    · right
      rw [hrd] at hf
      rw [hf]; simp
  · rintro (hn | hf)
    · rcases check_BMP_file_cases ((file_headers file).1.name.getD 0 0)
          ((file_headers file).1.name.getD 1 0) with hs | ⟨d, hs⟩
      · exact absurd (hsig_iff.1 hs) hn
      · exact ⟨d, open_BM_file_of_decode_error env file _
          (decode_signature_error env file _ (by rw [hrd]; exact hs))⟩
    · rcases check_BMP_file_cases ((file_headers file).1.name.getD 0 0)
          ((file_headers file).1.name.getD 1 0) with hs | ⟨d, hs⟩
      · rcases check_format_cases (file_headers file).2 with hok | ⟨d, hbad⟩
        · exact absurd hok hf
        · exact ⟨d, open_BM_file_of_decode_error env file _
            (decode_format_error env file _ (by rw [hrd]; exact hs) (by rw [hrd]; exact hbad))⟩
      · exact ⟨d, open_BM_file_of_decode_error env file _
          (decode_signature_error env file _ (by rw [hrd]; exact hs))⟩
  · intro hsig hfmt _ hw hh hr
    obtain ⟨body, hout, hlen⟩ := open_BM_file_layout env file h54 hsig hfmt hw hh hr
    refine ⟨body, hout, hlen, ?_⟩
    intro hav
    obtain ⟨out2, hout2, hk⟩ := open_BM_file_scanlines env file h54 hsig hfmt hw hh hr hav
    rw [hout] at hout2
    have e : file.take 54 ++ body = out2 := Except.ok.inj hout2
    rw [e]
    exact hk

/-- C14 (witness): the 1x1 image whose offset field is 0; its scanline is
read from bytes 0..3 of the file. -/
theorem C14_offset_not_validated_witness :
    open_BM_file zero_env header_offset_bmp
      = .ok (header_offset_bmp.take 54 ++ [52, 52, 52, 0]) ∧
    ∃ body, open_BM_file zero_env header_offset_bmp = .ok (header_offset_bmp.take 54 ++ body) ∧
      body.length = (file_headers header_offset_bmp).2.height.toNat
        * stride (file_headers header_offset_bmp).2.width.toNat ∧
      ((file_headers header_offset_bmp).1.offset
          + (file_headers header_offset_bmp).2.height.toNat
            * stride (file_headers header_offset_bmp).2.width.toNat
            ≤ header_offset_bmp.length →
        ∀ k < (file_headers header_offset_bmp).2.height.toNat,
          scanline (header_offset_bmp.take 54 ++ body) 54
              (stride (file_headers header_offset_bmp).2.width.toNat) k
            = negate_row (file_headers header_offset_bmp).2.width.toNat
                (scanline header_offset_bmp (file_headers header_offset_bmp).1.offset
                  (stride (file_headers header_offset_bmp).2.width.toNat) k)) :=
  ⟨by decide,
    (C14_offset_not_validated zero_env header_offset_bmp (by decide)).2 (by decide) (by decide)
      (by decide) (by decide) (by decide) (by decide)⟩

/-- C14 (counterexample): the 1x1 image with offset field 0 passes validation
and is converted; its "pixel" is read from bytes 0..2 of the file header
('B', 'M' and the low byte of the size field). -/
theorem C14_offset_inside_headers_accepted :
    (file_headers header_offset_bmp).1.offset = 0 ∧
    ¬ (54 ≤ (file_headers header_offset_bmp).1.offset) ∧
    header_offset_bmp.take 3 = [66, 77, 58] ∧
    negative ⟨66, 77, 58⟩ = 52 ∧
    open_BM_file zero_env header_offset_bmp
      = .ok (header_offset_bmp.take 54 ++ [52, 52, 52, 0]) := by
  decide

/-- C15 (as amended): for every rejected header_size, bits_per_pixel or
compression value the text given to `perror` is a fixed message that names
the violated field ("Header size", "Bits per pixel", "compressed"); it is the
same for every rejected value and does not report the value found. -/
theorem C15_fixed_diagnostics (size bits compression : Nat)
    (h1 : size ≠ 40) (h2 : bits ≠ 24) (h3 : compression ≠ 0) :
    check_header_size size = .error (.exit_failure
      (some "ERROR: Header size is not 40, need a clean bmp file to work!")) ∧
    check_bits_per_pixel bits = .error (.exit_failure
      (some "ERROR: Bits per pixel must be 24 for consistency!")) ∧
    check_compression compression = .error (.exit_failure
      (some "ERROR: Image file must not be compressed!")) ∧
    occurs_in "Header size" "ERROR: Header size is not 40, need a clean bmp file to work!" ∧
    occurs_in "Bits per pixel" "ERROR: Bits per pixel must be 24 for consistency!" ∧
    occurs_in "compressed" "ERROR: Image file must not be compressed!" := by
  refine ⟨?_, ?_, ?_, by decide, by decide, by decide⟩
  · simp [check_header_size, h1]
  · simp [check_bits_per_pixel, h2]
  · simp [check_compression, h3]

/-- C15 (witness): header_size 124, bits_per_pixel 8, compression 1. -/
theorem C15_fixed_diagnostics_witness :
    check_header_size 124 = .error (.exit_failure
      (some "ERROR: Header size is not 40, need a clean bmp file to work!")) ∧
    check_bits_per_pixel 8 = .error (.exit_failure
      (some "ERROR: Bits per pixel must be 24 for consistency!")) ∧
    check_compression 1 = .error (.exit_failure
      (some "ERROR: Image file must not be compressed!")) ∧
    occurs_in "Header size" "ERROR: Header size is not 40, need a clean bmp file to work!" ∧
    occurs_in "Bits per pixel" "ERROR: Bits per pixel must be 24 for consistency!" ∧
    occurs_in "compressed" "ERROR: Image file must not be compressed!" :=
  C15_fixed_diagnostics 124 8 1 (by decide) (by decide) (by decide)

/-- C15 (counterexample): for bits_per_pixel = 8 the message does not contain
"8"; for color_planes = 2 the message is the literal without its first two
characters and contains neither "2" nor anything after "read from file:". -/
theorem C15_value_not_in_diagnostic :
    check_bits_per_pixel 8 = .error (.exit_failure
      (some "ERROR: Bits per pixel must be 24 for consistency!")) ∧
    ¬ occurs_in "8" "ERROR: Bits per pixel must be 24 for consistency!" ∧
    check_color_planes 2 = .error (.exit_failure
      (some "ROR: Color planes must be 1.\nColor planes read from file:")) ∧
    ¬ occurs_in "2" "ROR: Color planes must be 1.\nColor planes read from file:" ∧
    ¬ occurs_in "Color planes read from file:2"
        "ROR: Color planes must be 1.\nColor planes read from file:" := by
  decide

/-- C16 (as amended): `image_to_negative` sets red, green and blue of every
pixel to the same byte `v`, where `v` is `(255-r) + (255-g) + (255-b)` reduced
modulo 256, that is `(765 - (r + g + b)) mod 256`; the sum is not clamped. -/
theorem C16_transform_wraps (width height : Int) (rows : List (List Byte))
    (hw : 0 < width) (hh : 0 < height) (hrows : rows.length = height.toNat) :
    image_to_negative { width := width, height := height, rgb := some rows }
      = .ok { width := width, height := height,
              rgb := some (rows.map (negate_row width.toNat)) } ∧
    ∀ (row : List Byte) (j : Nat), j < width.toNat → 3 * width.toNat ≤ row.length →
      ((negate_row width.toNat row).drop (3 * j)).take 3
        = [negative ⟨row.getD (3 * j) 0, row.getD (3 * j + 1) 0, row.getD (3 * j + 2) 0⟩,
           negative ⟨row.getD (3 * j) 0, row.getD (3 * j + 1) 0, row.getD (3 * j + 2) 0⟩,
           negative ⟨row.getD (3 * j) 0, row.getD (3 * j + 1) 0, row.getD (3 * j + 2) 0⟩] ∧
      (negative ⟨row.getD (3 * j) 0, row.getD (3 * j + 1) 0, row.getD (3 * j + 2) 0⟩).val
        = (765 - ((row.getD (3 * j + 2) 0).val + (row.getD (3 * j + 1) 0).val
            + (row.getD (3 * j) 0).val)) % 256 := by
  refine ⟨image_to_negative_positive width height rows hw hh hrows, ?_⟩
  intro row j hj hlen
  exact ⟨negate_row_pixel _ row j hj hlen, negative_val _⟩

/-- C16 (witness): the 1x1 grid holding (red=10, green=200, blue=0). -/
theorem C16_transform_wraps_witness :
    image_to_negative one_pixel = .ok ⟨1, 1, some [[43, 43, 43, 0, 0, 0]]⟩ :=
  (C16_transform_wraps 1 1 [[0, 200, 10, 0, 0, 0]] (by decide) (by decide) (by decide)).1

/-- C16 (counterexample): for (red=10, green=200, blue=0) the sum of the three
differences is 555, which `clamp_to_byte` maps to 255; `negative` returns 43
and `image_to_negative` stores 43. -/
theorem C16_not_clamped :
    clamp_to_byte ((255 - 10) + (255 - 200) + (255 - 0)) = 255 ∧
    negative ⟨0, 200, 10⟩ = 43 ∧
    ((negative ⟨0, 200, 10⟩).val : Int) ≠ clamp_to_byte ((255 - 10) + (255 - 200) + (255 - 0)) ∧
    image_to_negative one_pixel ≠ .ok ⟨1, 1, some [[255, 255, 255, 0, 0, 0]]⟩ := by
  decide

/-- C17: for every three stored bytes, `negative`, which reads them as signed
8-bit values, returns the byte obtained when they are read as unsigned
values, `(765 - (r + g + b)) mod 256`; converting that byte to `signed char`
for storage keeps its bit pattern, and the three channels of the pixel
receive it. -/
theorem C17_signed_storage_does_not_leak (rgb : RGB) :
    negative rgb = negative_unsigned rgb ∧
    (negative rgb).val = (765 - (rgb.red.val + rgb.green.val + rgb.blue.val)) % 256 ∧
    to_uchar (to_schar (negative rgb)) = negative rgb ∧
    negate_row 1 [rgb.blue, rgb.green, rgb.red] = [negative rgb, negative rgb, negative rgb] := by
  refine ⟨?_, negative_val rgb, to_uchar_to_schar _, ?_⟩
  · apply Fin.ext
    rw [negative_val, negative_unsigned_val]
  · simp [negate_row]

/-- C18: for a width `w` of at least 1 with `24 * w + 31` within `int`, with
`stride` the row size and `number_rgb = stride / 3 + 1`, a row of
`3 * number_rgb` bytes has more than `stride` and at most `stride + 3` bytes,
and `w ≤ number_rgb`.  `read_image` allocates exactly such rows: for every
positive height it returns `height` rows, each of `3 * number_rgb` bytes, so
the `stride` bytes read into a row, the pixels `0 .. w-1` of a row that
`image_to_negative` visits (which leave the row size unchanged) and the
`stride` bytes written from a row all lie inside the row buffer. -/
theorem C18_row_buffer_large_enough (w : Int) (hw : 1 ≤ w) (hr : 24 * w + 31 ≤ INT_MAX) :
    ∃ s : Nat, row_bytes w = some (s : Int) ∧ s = stride w.toNat ∧
      s < 3 * (s / 3 + 1) ∧ 3 * (s / 3 + 1) ≤ s + 3 ∧
      w.toNat ≤ s / 3 + 1 ∧ 3 * w.toNat ≤ 3 * (s / 3 + 1) ∧
      (∀ (env : Env) (i : Nat), (malloc_row env i (s / 3 + 1)).length = 3 * (s / 3 + 1)) ∧
      (∀ (env : Env) (file : List Byte) (h pos : Nat),
        ∀ row ∈ read_rows env file s (s / 3 + 1) h pos,
          row.length = 3 * (s / 3 + 1) ∧ s ≤ row.length ∧ 3 * w.toNat ≤ row.length) ∧
      (∀ (env : Env) (file : List Byte) (pos : Nat) (height : Int),
        0 < height → height ≤ INT_MAX →
        ∃ rows, read_image env file pos height w
            = .ok { width := w, height := height, rgb := some rows } ∧
          rows.length = height.toNat ∧
          (∀ row ∈ rows,
            row.length = 3 * (s / 3 + 1) ∧ s < row.length ∧ row.length ≤ s + 3 ∧
            3 * w.toNat ≤ row.length ∧
            (negate_row w.toNat row).length = row.length ∧
            ((negate_row w.toNat row).take s).length = s) ∧
          image_to_negative { width := w, height := height, rgb := some rows }
            = .ok { width := w, height := height,
                    rgb := some (rows.map (negate_row w.toNat)) }) := by
  have hb := stride_bounds w.toNat
  have hs : (((24 * w + 31) / 32) * 4) = ((stride w.toNat : Nat) : Int) := by
    rw [← stride_cast w hw]
    exact (Int.toNat_of_nonneg (by omega)).symm
  have hn : stride w.toNat ≤ (stride w.toNat / 3 + 1) * 3 := by omega
  have hcount : ∀ (env : Env) (file : List Byte) (h pos : Nat),
      (read_rows env file (stride w.toNat) (stride w.toNat / 3 + 1) h pos).length = h := by
    intro env file h
    induction h with
    | zero => intro pos; simp [read_rows]
    | succ i ih => intro pos; simp [read_rows, ih]
  have hsize : ∀ (env : Env) (file : List Byte) (h pos : Nat),
      ∀ row ∈ read_rows env file (stride w.toNat) (stride w.toNat / 3 + 1) h pos,
        row.length = (stride w.toNat / 3 + 1) * 3 := by
    intro env file h
    induction h with
    | zero => intro pos row hrow; simp [read_rows] at hrow
    | succ i ih =>
      intro pos row hrow
      simp only [read_rows, List.mem_append, List.mem_singleton] at hrow
      rcases hrow with hrow | hrow
      · exact ih _ row hrow
      · subst hrow
        simp only [fread_bytes, malloc_row, List.length_append, List.length_take,
          List.length_drop, List.length_map, List.length_range]
        omega
  refine ⟨stride w.toNat, ?_, rfl, by omega, by omega, by omega, by omega, ?_, ?_, ?_⟩
  · rw [row_bytes_pos w hw hr, hs]
  · intro env i
    simp only [malloc_row, List.length_map, List.length_range]
    ring
  · intro env file h pos row hrow
    have := hsize env file h pos row hrow
    omega
  · intro env file pos height hh hhr
    have h1 : height ≠ 0 ∧ w ≠ 0 := ⟨by omega, by omega⟩
    have h2 : in_int (height - 1) = true := by
      simp [in_int, INT_MIN, INT_MAX] at *; omega
    have h3 : ¬ height - 1 < 0 := by omega
    have h4 : ¬ ((24 * w + 31) / 32) * 4 < 0 := by omega
    have h5 : ¬ (height ≤ 0 ∨ w ≤ 0) := by omega
    have hlen := hcount env file height.toNat pos
    refine ⟨read_rows env file (stride w.toNat) (stride w.toNat / 3 + 1) height.toNat pos,
      ?_, hlen, ?_, ?_⟩
    · unfold read_image
      rw [if_pos h1, row_bytes_pos w hw hr]
      simp only [h2, h3, h4, if_false, stride_cast w hw]
      simp
    · intro row hrow
      have hrl := hsize env file height.toNat pos row hrow
      refine ⟨by omega, by omega, by omega, by omega, negate_row_length _ _, ?_⟩
      rw [List.length_take, negate_row_length]
      omega
    · have key : ∀ rows : List (List Byte), rows.length = height.toNat →
          image_to_negative { width := w, height := height, rgb := some rows }
            = .ok { width := w, height := height,
                    rgb := some (rows.map (negate_row w.toNat)) } := by
        intro rows hrows
        have h7 : ¬ rows.length < height.toNat := by omega
        unfold image_to_negative
        simp only [h5, h7, if_false]
        rw [← hrows]
        simp
      exact key _ hlen

/-- C18 (witness): width 5 has stride 16, `number_rgb` 6 and rows of 18
bytes; `read_image` on an empty file returns one such row for height 1. -/
theorem C18_row_buffer_large_enough_witness :
    read_image zero_env [] 0 1 5
      = .ok { width := 5, height := 1, rgb := some [List.replicate 18 0] } ∧
    ∃ s : Nat, row_bytes 5 = some (s : Int) ∧ s = stride (5 : Int).toNat ∧
      s < 3 * (s / 3 + 1) ∧ 3 * (s / 3 + 1) ≤ s + 3 ∧
      (5 : Int).toNat ≤ s / 3 + 1 ∧ 3 * (5 : Int).toNat ≤ 3 * (s / 3 + 1) ∧
      (∀ (env : Env) (i : Nat), (malloc_row env i (s / 3 + 1)).length = 3 * (s / 3 + 1)) ∧
      (∀ (env : Env) (file : List Byte) (h pos : Nat),
        ∀ row ∈ read_rows env file s (s / 3 + 1) h pos,
          row.length = 3 * (s / 3 + 1) ∧ s ≤ row.length ∧ 3 * (5 : Int).toNat ≤ row.length) ∧
      (∀ (env : Env) (file : List Byte) (pos : Nat) (height : Int),
        0 < height → height ≤ INT_MAX →
        ∃ rows, read_image env file pos height 5
            = .ok { width := 5, height := height, rgb := some rows } ∧
          rows.length = height.toNat ∧
          (∀ row ∈ rows,
            row.length = 3 * (s / 3 + 1) ∧ s < row.length ∧ row.length ≤ s + 3 ∧
            3 * (5 : Int).toNat ≤ row.length ∧
            (negate_row (5 : Int).toNat row).length = row.length ∧
            ((negate_row (5 : Int).toNat row).take s).length = s) ∧
          image_to_negative { width := 5, height := height, rgb := some rows }
            = .ok { width := 5, height := height,
                    rgb := some (rows.map (negate_row (5 : Int).toNat)) }) :=
  ⟨by decide, C18_row_buffer_large_enough 5 (by decide) (by decide)⟩

/-- C19: for an accepted input with positive width and height
(`24 * width + 31` within `int`) the output is the 54
header bytes followed by `height` scanlines of `stride` bytes: its length is
`54 + height * stride` and its pixel array starts at byte 54 whatever the
offset field holds; when the input pixel array is complete, the scanline at
byte 54 of the output is the transform of the scanline at `offset` of the
input. -/
theorem C19_output_layout (env : Env) (file : List Byte)
    (h54 : 54 ≤ file.length)
    (hsig : (file_headers file).1.name = [66, 77])
    (hfmt : check_format (file_headers file).2 = .ok ())
    (hw : 0 < (file_headers file).2.width) (hh : 0 < (file_headers file).2.height)
    (hr : 24 * (file_headers file).2.width + 31 ≤ INT_MAX) :
    ∃ out body, open_BM_file env file = .ok out ∧ out = file.take 54 ++ body ∧
      out.drop 54 = body ∧
      body.length = (file_headers file).2.height.toNat
        * stride (file_headers file).2.width.toNat ∧
      out.length = 54 + (file_headers file).2.height.toNat
        * stride (file_headers file).2.width.toNat ∧
      (∀ k < (file_headers file).2.height.toNat,
        (scanline out 54 (stride (file_headers file).2.width.toNat) k).length
          = stride (file_headers file).2.width.toNat) ∧
      ((file_headers file).1.offset
          + (file_headers file).2.height.toNat * stride (file_headers file).2.width.toNat
            ≤ file.length →
        scanline out 54 (stride (file_headers file).2.width.toNat) 0
          = negate_row (file_headers file).2.width.toNat
              (scanline file (file_headers file).1.offset
                (stride (file_headers file).2.width.toNat) 0)) := by
  obtain ⟨body, hout, hlen⟩ := open_BM_file_layout env file h54 hsig hfmt hw hh hr
  have ht : (file.take 54).length = 54 := by simp; omega
  have hol : (file.take 54 ++ body).length = 54 + (file_headers file).2.height.toNat
      * stride (file_headers file).2.width.toNat := by
    rw [List.length_append, ht, hlen]
  refine ⟨file.take 54 ++ body, body, hout, rfl, List.drop_left' ht, hlen, hol, ?_, ?_⟩
  · intro k hk
    apply scanline_length
    rw [hol]
    have : (k + 1) * stride (file_headers file).2.width.toNat
        ≤ (file_headers file).2.height.toNat * stride (file_headers file).2.width.toNat :=
      Nat.mul_le_mul_right _ (by omega)
    omega
  · intro hav
    obtain ⟨out2, hout2, hk⟩ := open_BM_file_scanlines env file h54 hsig hfmt hw hh hr hav
    rw [hout] at hout2
    have e : file.take 54 ++ body = out2 := Except.ok.inj hout2
    rw [e]
    exact hk 0 (by omega)

/-- C19 (witness): the 1x1 image whose offset field is 2^31; the output has
58 bytes and its scanline starts at byte 54. -/
theorem C19_output_layout_witness :
    open_BM_file zero_env far_offset_bmp = .ok (far_offset_bmp.take 54 ++ [253, 253, 253, 0]) ∧
    ∃ out body, open_BM_file zero_env far_offset_bmp = .ok out ∧
      out = far_offset_bmp.take 54 ++ body ∧
      out.drop 54 = body ∧
      body.length = (file_headers far_offset_bmp).2.height.toNat
        * stride (file_headers far_offset_bmp).2.width.toNat ∧
      out.length = 54 + (file_headers far_offset_bmp).2.height.toNat
        * stride (file_headers far_offset_bmp).2.width.toNat ∧
      (∀ k < (file_headers far_offset_bmp).2.height.toNat,
        (scanline out 54 (stride (file_headers far_offset_bmp).2.width.toNat) k).length
          = stride (file_headers far_offset_bmp).2.width.toNat) ∧
      ((file_headers far_offset_bmp).1.offset
          + (file_headers far_offset_bmp).2.height.toNat
            * stride (file_headers far_offset_bmp).2.width.toNat
            ≤ far_offset_bmp.length →
        scanline out 54 (stride (file_headers far_offset_bmp).2.width.toNat) 0
          = negate_row (file_headers far_offset_bmp).2.width.toNat
              (scanline far_offset_bmp (file_headers far_offset_bmp).1.offset
                (stride (file_headers far_offset_bmp).2.width.toNat) 0)) :=
  ⟨by decide,
    C19_output_layout zero_env far_offset_bmp (by decide) (by decide) (by decide) (by decide)
      (by decide) (by decide)⟩

end BmpNegative
